import Mathlib

/-!
Verification development for `MAPLEAF/IO/simDefinition.py`.

The Python module is shallowly embedded here.  Python strings are modelled
as `List Char` (`Str`), Python `dict[str, str]` as an insertion-ordered
association list (`Table`) whose update semantics mirror CPython dicts
(assignment to an existing key updates in place, new keys append).
File access, path resolution, float/vector parsing and the random number
generator are external collaborators of the module and are modelled as
explicit environment parameters (`SimDefEnv`).
-/

namespace MapleafSim

/-- Python `str` modelled as a list of characters. -/
abbrev Str := List Char

/-- Coerce a Lean string literal to the `Str` model. -/
def str (x : String) : Str := x.data

/-- Characters stripped by Python's default `str.strip()` / split by `str.split()`. -/
def isPySpace (c : Char) : Bool :=
  c = ' ' || c = '\t' || c = '\n' || c = '\r' || c = '\x0b' || c = '\x0c'

/-- Python `s.strip()`: drop leading and trailing whitespace. -/
def pyStrip (sIn : Str) : Str :=
  ((sIn.dropWhile isPySpace).reverse.dropWhile isPySpace).reverse

/-- Accumulator loop for `pySplitWS`; `cur` holds the current token reversed. -/
def pySplitWSAux : Str → Str → List Str
  | [], cur => if cur.isEmpty then [] else [cur.reverse]
  | c :: rest, cur =>
    if isPySpace c then
      if cur.isEmpty then pySplitWSAux rest []
      else cur.reverse :: pySplitWSAux rest []
    else pySplitWSAux rest (c :: cur)

/-- Python `s.split()` (no argument): split on whitespace runs, no empty tokens. -/
def pySplitWS (sIn : Str) : List Str := pySplitWSAux sIn []

/-- Accumulator loop for `pySplitChar`; `cur` holds the current piece reversed. -/
def pySplitCharAux (sep : Char) : Str → Str → List Str
  | [], cur => [cur.reverse]
  | c :: rest, cur =>
    if c = sep then cur.reverse :: pySplitCharAux sep rest []
    else pySplitCharAux sep rest (c :: cur)

/-- Python `s.split(sep)` for a one-character separator: `"" ↦ [""]`,
`"a." ↦ ["a", ""]`, etc. -/
def pySplitChar (sep : Char) (sIn : Str) : List Str := pySplitCharAux sep sIn []

/-- Python `sep.join(parts)` for a one-character separator. -/
def joinWith (sep : Char) : List Str → Str
  | [] => []
  | [p] => p
  | p :: rest => p ++ sep :: joinWith sep rest

/-- `"."``.join` — used pervasively for dotted keys. -/
def joinDots (parts : List Str) : Str := joinWith '.' parts

/-- `" "``.join` — used to re-join value tokens. -/
def joinSpaces (parts : List Str) : Str := joinWith ' ' parts

/-- `"\t" * n`. -/
def tabs (n : Nat) : Str := List.replicate n '\t'

/-- Python `needle in hay` for strings: substring test. -/
def isSubstring (needle hay : Str) : Bool := decide (needle <:+: hay)

/-- Python `s.index(ch)`: position of the first occurrence, `none` if absent
(where Python raises `ValueError`). -/
def pyIndexOf (ch : Char) : Str → Option Nat
  | [] => none
  | c :: rest =>
    if c = ch then some 0
    else (pyIndexOf ch rest).map (· + 1)

/-- Matching loop of `pyReplace` for a non-empty pattern.  The extra `Nat`
fuel is the length of the scanned string; every step consumes at least one
character, so the fuel never runs out when initialised with `s.length`. -/
def pyReplaceGo (pat rep : Str) : Nat → Str → Str
  | 0, sIn => sIn
  | _ + 1, [] => []
  | f + 1, c :: rest =>
    if List.isPrefixOf pat (c :: rest) then
      rep ++ pyReplaceGo pat rep f (List.drop pat.length (c :: rest))
    else c :: pyReplaceGo pat rep f rest

/-- Python `s.replace(pat, rep)`: replace every non-overlapping occurrence,
left to right.  An empty pattern inserts `rep` between all characters and at
both ends, like CPython. -/
def pyReplace (sIn pat rep : Str) : Str :=
  if pat.isEmpty then rep ++ sIn.flatMap (fun c => c :: rep)
  else pyReplaceGo pat rep sIn.length sIn

/-- States of the simplified `shlex.split` scanner. -/
inductive ShlexState where
  | ws : ShlexState
  | tok : ShlexState
  | quo : Char → ShlexState
deriving DecidableEq

/-- Scanner loop for `shlexSplit`; `cur` is the current token reversed, and
`started` records whether a token (possibly empty, from `""`) is open. -/
def shlexAux : ShlexState → Str → Str → Bool → List Str
  | _, [], cur, started => if started then [cur.reverse] else []
  | ShlexState.quo q, c :: rest, cur, _ =>
    if c = q then shlexAux ShlexState.tok rest cur true
    else shlexAux (ShlexState.quo q) rest (c :: cur) true
  | st, c :: rest, cur, started =>
    if isPySpace c then
      match st, started with
      | ShlexState.tok, _ => cur.reverse :: shlexAux ShlexState.ws rest [] false
      | _, true => cur.reverse :: shlexAux ShlexState.ws rest [] false
      | _, false => shlexAux ShlexState.ws rest [] false
    else if c = '"' || c = '\x27' then shlexAux (ShlexState.quo c) rest cur true
    else shlexAux ShlexState.tok rest (c :: cur) true

/-- Simplified model of Python `shlex.split` (POSIX mode): whitespace
separates tokens, single or double quotes group characters literally and are
removed.  Backslash escapes and unterminated quotes (which raise in `shlex`)
are outside the modelled input space. -/
def shlexSplit (sIn : Str) : List Str := shlexAux ShlexState.ws sIn [] false

/-- The local helper `removeQuotes` in `_parseDerivedDictionary`: removes
every `'` and `"` character. -/
def removeQuotes (sIn : Str) : Str :=
  (sIn.filter (fun c => !(c = '\x27'))).filter (fun c => !(c = '"'))

/-! ### The flat key/value table (Python `dict[str, str]`) -/

/-- Insertion-ordered string-keyed map, mirroring a CPython `dict`. -/
abbrev Table := List (Str × Str)

namespace Table

/-- `d[k]` as an option (first binding wins; keys are unique in practice). -/
def get? : Table → Str → Option Str
  | [], _ => none
  | (k', v') :: rest, k => if k' = k then some v' else get? rest k

/-- Python `k in d`. -/
def contains (t : Table) (k : Str) : Bool := (t.get? k).isSome

/-- Python `d[k] = v`: update in place if present, else append. -/
def set : Table → Str → Str → Table
  | [], k, v => [(k, v)]
  | (k', v') :: rest, k, v =>
    if k' = k then (k', v) :: rest else (k', v') :: set rest k v

/-- Python `list(d.keys())`. -/
def keys (t : Table) : List Str := t.map Prod.fst

end Table

/-! ### Functions for dealing with string keys (module-level helpers) -/

/-- `isSubKey(potentialParent, potentialChild)` from the source: true iff the
parent is empty, or the child strictly extends the parent followed by a dot. -/
def isSubKey (potentialParent potentialChild : Str) : Bool :=
  if potentialParent = [] then true
  else if potentialChild.length ≤ potentialParent.length then false
  else
    decide (potentialChild.take potentialParent.length = potentialParent) &&
      (potentialChild.get? potentialParent.length = some '.')

/-- `getKeyLevel(key)`: number of dots; `-1` for the empty key. -/
def getKeyLevel (key : Str) : Int :=
  if key.length = 0 then -1
  else ((pySplitChar '.' key).length : Int) - 1

/-- `getParentKeyAtLevel(key, desiredLevel)`: first `desiredLevel + 1`
segments re-joined with dots.  The source passes only non-negative levels. -/
def getParentKeyAtLevel (key : Str) (desiredLevel : Nat) : Str :=
  joinDots ((pySplitChar '.' key).take (desiredLevel + 1))

/-- `splitKeyAtLevel(key, prefixLevel)`: segments `0..prefixLevel` joined with
dots, and the remaining segments joined with dots.  The source passes only
non-negative levels. -/
def splitKeyAtLevel (key : Str) (prefixLevel : Nat) : Str × Str :=
  let n := prefixLevel + 1
  let keyNames := pySplitChar '.' key
  (joinDots (keyNames.take n), joinDots (keyNames.drop n))

/-- `getImmediateSubKey(parent, child)`: the prefix of `child` one level below
`parent`; `none` where the source raises `ValueError`. -/
def getImmediateSubKey (parent child : Str) : Option Str :=
  if !isSubKey parent child then none
  else some (splitKeyAtLevel child (getKeyLevel parent + 1).toNat).1

/-- `isFileName(value)`: the value contains one of the expected extensions. -/
def isFileName (value : Str) : Bool :=
  [str ".csv", str ".pdf", str ".mapleaf", str ".txt", str ".py", str ".eng"].any
    (fun ext => isSubstring ext value)

/-- `pathIsRelativeToRepository(possiblePath)`. -/
def pathIsRelativeToRepository (possiblePath : Str) : Bool :=
  decide (possiblePath.length > 8) && decide (possiblePath.take 8 = str "MAPLEAF/")


/-! ### The default value dictionary (`defaultConfigValues`) -/

/-- The module-level `defaultConfigValues` dictionary, transcribed entry by
entry from the source. -/
def defaultConfigValues : Table := [
    (str "Optimization.showConvergencePlot", str "True"),
    (str "MonteCarlo.output", str "landingLocations"),
    (str "SimControl.plot", str "Position FlightAnimation"),
    (str "SimControl.loggingLevel", str "2"),
    (str "SimControl.EndCondition", str "Altitude"),
    (str "SimControl.EndConditionValue", str "-1"),
    (str "SimControl.StageDropPaths.compute", str "true"),
    (str "SimControl.StageDropPaths.endCondition", str "Altitude"),
    (str "SimControl.StageDropPaths.endConditionValue", str "0"),
    (str "SimControl.timeDiscretization", str "RK45Adaptive"),
    (str "SimControl.timeStep", str "0.01"),
    (str "SimControl.TimeStepAdaptation.controller", str "PID"),
    (str "SimControl.TimeStepAdaptation.targetError", str "0.001"),
    (str "SimControl.TimeStepAdaptation.minFactor", str "0.3"),
    (str "SimControl.TimeStepAdaptation.maxFactor", str "1.5"),
    (str "SimControl.TimeStepAdaptation.Elementary.safetyFactor", str "0.9"),
    (str "SimControl.TimeStepAdaptation.maxTimeStep", str "30"),
    (str "SimControl.TimeStepAdaptation.minTimeStep", str "0.0001"),
    (str "SimControl.TimeStepAdaptation.PID.coefficients", str "-0.01 -0.001 0"),
    (str "SimControl.TimeStepAdaptation.eventTimingAccuracy", str "0.001"),
    (str "SimControl.RocketPlot", str "Off"),
    (str "Environment.EarthModel", str "Flat"),
    (str "Environment.AtmosphericPropertiesModel", str "USStandardAtmosphere"),
    (str "Environment.LaunchSite.elevation", str "0"),
    (str "Environment.LaunchSite.railLength", str "0"),
    (str "Environment.LaunchSite.latitude", str "0"),
    (str "Environment.LaunchSite.longitude", str "0"),
    (str "Environment.MeanWindModel", str "Constant"),
    (str "Environment.ConstantMeanWind.velocity", str "(0 0 0)"),
    (str "Environment.SampledGroundWindData.launchMonth", str "Yearly"),
    (str "Environment.SampledRadioSondeData.launchMonth", str "Yearly"),
    (str "Environment.Hellman.alphaCoeff", str "0.1429"),
    (str "Environment.Hellman.altitudeLimit", str "1000"),
    (str "Environment.TurbulenceModel", str "None"),
    (str "Environment.turbulenceOffWhenUnderChute", str "True"),
    (str "Environment.ConstantAtmosphere.temp", str "15"),
    (str "Environment.ConstantAtmosphere.pressure", str "101325"),
    (str "Environment.ConstantAtmosphere.density", str "1.225"),
    (str "Environment.ConstantAtmosphere.viscosity", str "1.789e-5"),
    (str "Environment.TabulatedAtmosphere.filePath", str "MAPLEAF/ENV/US_STANDARD_ATMOSPHERE.txt"),
    (str "Rocket.HIL.quatUpdateRate", str "100"),
    (str "Rocket.HIL.posUpdateRate", str "20"),
    (str "Rocket.HIL.velUpdateRate", str "20"),
    (str "Rocket.HIL.teensyComPort", str "COM20"),
    (str "Rocket.HIL.imuComPort", str "COM15"),
    (str "Rocket.HIL.teensyBaudrate", str "9600"),
    (str "Rocket.HIL.imuBaudrate", str "57600"),
    (str "Rocket.ControlSystem.desiredFlightDirection", str "(0 0 1)"),
    (str "Rocket.ControlSystem.MomentController.Type", str "ScheduledGainPIDRocket"),
    (str "Rocket.ControlSystem.updateRate", str "0"),
    (str "Rocket.name", str "Rocket"),
    (str "Rocket.position", str "(0 0 10)"),
    (str "Rocket.initialDirection", str "(0 0 1)"),
    (str "Rocket.velocity", str "(0 0 0)"),
    (str "Rocket.angularVelocity", str "(0 0 0)"),
    (str "Rocket.Aero.fullyTurbulentBL", str "true"),
    (str "Rocket.Aero.addZeroLengthBoatTailsToAccountForBaseDrag", str "true"),
    (str "Rocket.Aero.surfaceRoughness", str "0.000005"),
    (str "Stage.stageNumber", str "0"),
    (str "Stage.separationTriggerType", str "None"),
    (str "Stage.separationTriggerValue", str "0"),
    (str "Stage.separationDelay", str "0"),
    (str "Stage.position", str "(0 0 0)"),
    (str "AeroForce.Lref", str "0"),
    (str "AeroForce.Cd", str "0"),
    (str "AeroForce.Cl", str "0"),
    (str "AeroForce.momentCoeffs", str "(0 0 0)"),
    (str "AeroDamping.zDampingCoeffs", str "(0 0 0)"),
    (str "AeroDamping.yDampingCoeffs", str "(0 0 0)"),
    (str "AeroDamping.xDampingCoeffs", str "(0 0 0)"),
    (str "FinSet.finCantAngle", str "0"),
    (str "FinSet.firstFinAngle", str "0"),
    (str "FinSet.LeadingEdge.shape", str "Round"),
    (str "FinSet.TrailingEdge.shape", str "Tapered"),
    (str "FinSet.numFinSpanSlicesForIntegration", str "10"),
    (str "Nosecone.shape", str "tangentOgive"),
    (str "BoatTail.shape", str "cone"),
    (str "Mass.cg", str "(0 0 0)"),
    (str "Motor.impulseAdjustFactor", str "1.0"),
    (str "Motor.burnTimeAdjustFactor", str "1.0"),
    (str "Actuator.controller", str "TableInterpolating"),
    (str "Actuator.responseModel", str "FirstOrder"),
    (str "Actuator.responseTime", str "0.1"),
    (str "RecoverySystem.cg", str "(0 0 0)"),
    (str "TabulatedAeroForce.Lref", str "0"),
    (str "testValue.testDefaultValue1", str "asdf"),
    (str "testDefaultValue2", str "jkl;")
  ]

/-! ### Errors, RNG and the `SimDefinition` record -/

/-- The failure modes of the module.  The source raises `ValueError` /
`KeyError` with formatted messages; each constructor carries the data that
the corresponding message interpolates. -/
inductive Err where
  /-- `"Duplicate Key: {key} in File: {fileName}"` in `_parseDictionaryContents`. -/
  | duplicateKey : Str → Str → Err
  /-- `"Problem parsing line {i}: {line}"` in `_parseDictionaryContents`. -/
  | malformedLine : Nat → Str → Err
  /-- Circular-reference `ValueError` in `_loadSubSimDefinition`:
  requesting file, target file and the current parse stack. -/
  | circularInclude : Str → Str → List Str → Err
  /-- `"ERROR: Dictionary to derive from: ..."` in `_parseDerivedDictionary`. -/
  | unknownSourceDict : Str → Str → Str → Err
  /-- `"Derived dict key {key} already exists"` in `_parseDerivedDictionary`. -/
  | derivedKeyCollision : Str → Err
  /-- `"Command: {cmd} not implemented..."` in `_parseDerivedDictionary`. -/
  | unknownDirective : Str → Err
  /-- `KeyError` raised by `getValue`: key and the file name. -/
  | keyNotFound : Str → Option Str → Err
  /-- Probabilistic value that parses as neither scalar nor vector
  (`print` + `raise` in `resampleProbabilisticValues`). -/
  | invalidProbabilisticValue : Str → Err
  /-- Uncaught Python exception: `IOError` from `open`. -/
  | fileNotFound : Str → Err
  /-- Uncaught Python exception: `IndexError` / `ValueError` / `KeyError` /
  `TypeError` on malformed internal data (e.g. `line.index(" ")` with no
  space, `definitionLine[1]` missing, `i = None; i += 1`). -/
  | pyCrash : Str → Err
  /-- The fuel of the embedding ran out (no Python counterpart; all
  theorems supply sufficient fuel). -/
  | outOfFuel : Err
deriving DecidableEq

/-- Seed of `random.Random`: an explicit string value from
`MonteCarlo.randomSeed`, or a fresh draw of `random.randrange(1000000)`. -/
inductive Seed where
  | ofValue : Str → Seed
  | fresh : Nat → Seed
deriving DecidableEq

/-- The instance of `random.Random` owned by a `SimDefinition`, abstracted
to its seed and the number of Gaussian draws consumed so far. -/
structure Rng where
  seed : Seed
  pos : Nat
deriving DecidableEq

/-- External collaborators of the module: the file system, path resolution
(`getAbsoluteFilePath`, `os.path`), scalar/vector parsing (`float`,
`MAPLEAF.Motion.Vector`) and the Gaussian sampler of `random.Random`. -/
structure SimDefEnv where
  /-- Contents of each file (`open(fileName).read()`), `none` if absent. -/
  files : Str → Option Str
  /-- `getAbsoluteFilePath(relativePath, alternateRelativeLocation)`. -/
  resolve : Str → Str → Str
  /-- `str(Path(fileName).parent)`. -/
  parentDir : Str → Str
  /-- `os.path.dirname(os.path.realpath(fileName))`. -/
  realDirname : Str → Str
  /-- `os.path.join`. -/
  joinPath : Str → Str → Str
  /-- `os.path.exists`. -/
  pathExists : Str → Bool
  /-- One `random.randrange(1000000)` draw per constructed definition,
  keyed by file name (models the nondeterministic fresh seed). -/
  freshSeed : Str → Nat
  /-- Whether `float(s)` succeeds. -/
  isFloat : Str → Bool
  /-- The three components of `Vector(s)`, `none` if the conversion raises
  `ValueError`. -/
  vecComponents : Str → Option (Str × Str × Str)
  /-- `str(rng.gauss(mu, sigma))` as a function of the seed, the number of
  draws already consumed, and the (string forms of) `mu` and `sigma`. -/
  gauss : Seed → Nat → Str → Str → Str
  /-- `str(Vector(x, y, z))`. -/
  vecToString : Str → Str → Str → Str

/-- One Gaussian draw: returns the sampled string and advances the stream. -/
def Rng.gaussDraw (env : SimDefEnv) (r : Rng) (mu sigma : Str) : Str × Rng :=
  (env.gauss r.seed r.pos mu sigma, ⟨r.seed, r.pos + 1⟩)

/-- The `SimDefinition` object: main dictionary, default dictionary, RNG and
usage trackers.  `silent` and the Monte-Carlo logger only affect console
output and are not modelled. -/
structure SimDefinition where
  fileName : Option Str
  dict : Table
  defaultDict : Table
  disableDistributionSampling : Bool
  rng : Rng
  unaccessedFields : List Str
  defaultValuesUsed : List Str
deriving DecidableEq

/-- Add an element to a set-modelled-as-list (Python `set.add`). -/
def addToSet (x : Str) (l : List Str) : List Str :=
  if x ∈ l then l else l ++ [x]


/-! ### Value resolution (`getValue` and `_getClassBasedDefaultValue`) -/

/-- Loop of `_getClassBasedDefaultValue`.  The argument `n` counts the
levels still to try: `n = L + 1` means the current `splitLevel` is `L`, and
`n = 0` means the `while splitLevel >= 0` loop has terminated.  As soon as a
`prefix + ".class"` entry is found the search terminates: the class-based
default is returned if present in the default dictionary, otherwise the
result is `none` without retrying shallower levels. -/
def classDefaultAux (sd : SimDefinition) (key : Str) : Nat → Option (Str × SimDefinition)
  | 0 => none
  | n + 1 =>
    let pre := (splitKeyAtLevel key n).1
    let suf := (splitKeyAtLevel key n).2
    let classKey := pre ++ str ".class"
    match sd.dict.get? classKey with
    | some className =>
      let classBasedDefaultKey := className ++ '.' :: suf
      match sd.defaultDict.get? classBasedDefaultKey with
      | some defaultValue =>
        some (defaultValue,
          { sd with
            defaultValuesUsed := addToSet classBasedDefaultKey sd.defaultValuesUsed,
            unaccessedFields := sd.unaccessedFields.erase classKey })
      | none => none
    | none => classDefaultAux sd key n

/-- `_getClassBasedDefaultValue(key)`: search levels `getKeyLevel(key)` down
to `0` for a `prefix + ".class"` entry; on success also returns the updated
usage trackers. -/
def SimDefinition.getClassBasedDefaultValue (sd : SimDefinition) (key : Str) :
    Option (Str × SimDefinition) :=
  classDefaultAux sd key (getKeyLevel key + 1).toNat

/-- `getValue(key)`: instance table, then flat default table, then
class-based default, else `KeyError`.  Returns the value together with the
`SimDefinition` carrying the updated usage trackers. -/
def SimDefinition.getValue (sd : SimDefinition) (key : Str) :
    Except Err (Str × SimDefinition) :=
  let key := pyStrip key
  match sd.dict.get? key with
  | some v =>
    Except.ok (v, { sd with unaccessedFields := sd.unaccessedFields.erase key })
  | none =>
    match sd.defaultDict.get? key with
    | some v =>
      Except.ok (v, { sd with defaultValuesUsed := addToSet key sd.defaultValuesUsed })
    | none =>
      match sd.getClassBasedDefaultValue key with
      | some (v, sd') => Except.ok (v, sd')
      | none => Except.error (Err.keyNotFound key sd.fileName)

/-- `setValue(key, value)`: unconditional insert/overwrite of the stripped key. -/
def SimDefinition.setValue (sd : SimDefinition) (key value : Str) : SimDefinition :=
  { sd with dict := sd.dict.set (pyStrip key) value }

/-- `setIfAbsent(key, value)`. -/
def SimDefinition.setIfAbsent (sd : SimDefinition) (key value : Str) : SimDefinition :=
  if !sd.dict.contains key then sd.setValue key value else sd

/-! ### Introspection / key gymnastics -/

/-- `findKeysContaining(keyContains)`: all keys containing every query
substring; the source returns `None` (not `[]`) when nothing matches. -/
def SimDefinition.findKeysContaining (sd : SimDefinition) (keyContains : List Str) :
    Option (List Str) :=
  let matchingKeys := sd.dict.keys.filter
    (fun key => keyContains.all (fun sq => isSubstring sq key))
  if matchingKeys.length > 0 then some matchingKeys else none

/-- `getSubKeys(key, Dict)`: all keys of `t` that are children of `key`. -/
def getSubKeysOf (key : Str) (t : Table) : List Str :=
  t.keys.filter (fun currentKey => isSubKey key currentKey)

/-- `getSubKeys(key)` on the instance dictionary. -/
def SimDefinition.getSubKeys (sd : SimDefinition) (key : Str) : List Str :=
  getSubKeysOf key sd.dict

/-- `getImmediateSubKeys(key)`: for every child key, take the prefix one
level below `key`, and keep it only if it is itself a key of the dictionary.
The Python `set` is modelled as a deduplicated list in first-insertion
order; the claims about this function are membership claims. -/
def SimDefinition.getImmediateSubKeys (sd : SimDefinition) (key : Str) : List Str :=
  sd.dict.keys.foldl
    (fun results potentialChildKey =>
      if isSubKey key potentialChildKey then
        match getImmediateSubKey key potentialChildKey with
        | some immediateSubkey =>
          if sd.dict.contains immediateSubkey then addToSet immediateSubkey results
          else results
        | none => results
      else results)
    []

/-- `getImmediateSubDicts(key)`: parents at level `level(key) + 1` of the
sub-keys lying at least two levels below `key` (set modelled as above). -/
def SimDefinition.getImmediateSubDicts (sd : SimDefinition) (key : Str) : List Str :=
  let keyLevel := getKeyLevel key
  let subKeys := sd.getSubKeys key
  subKeys.foldl
    (fun subDictionaries subKey =>
      if getKeyLevel subKey - keyLevel > 1 then
        addToSet (getParentKeyAtLevel subKey (keyLevel + 1).toNat) subDictionaries
      else subDictionaries)
    []

/-! ### Probabilistic resampling -/

/-- Sampling part of one `resampleProbabilisticValues` loop iteration, after
the mean has been determined: try scalar parsing of mean and standard
deviation, then vector parsing, else fail; overwrite `key` with the draw. -/
def resampleDraw (env : SimDefEnv) (dict : Table) (rng : Rng)
    (key meanString stdDevString : Str) : Except Err (Table × Rng) :=
  if env.isFloat meanString && env.isFloat stdDevString then
    let draw := rng.gaussDraw env meanString stdDevString
    Except.ok (dict.set key draw.1, draw.2)
  else
    match env.vecComponents meanString, env.vecComponents stdDevString with
    | some mu, some sigma =>
      let d1 := rng.gaussDraw env mu.1 sigma.1
      let d2 := d1.2.gaussDraw env mu.2.1 sigma.2.1
      let d3 := d2.2.gaussDraw env mu.2.2 sigma.2.2
      Except.ok (dict.set key (env.vecToString d1.1 d2.1 d3.1), d3.2)
    | _, _ => Except.error (Err.invalidProbabilisticValue key)

/-- Body of the `for key in keys` loop of `resampleProbabilisticValues` for
one key: if `key + "_stdDev"` exists, determine the mean from
`key + "_mean"` — storing the current value of `key` there when absent —
then overwrite `key` with a Gaussian draw. -/
def resampleKey (env : SimDefEnv) (st : Table × Rng) (key : Str) :
    Except Err (Table × Rng) :=
  let dict := st.1
  let rng := st.2
  let stdDevKey := key ++ str "_stdDev"
  match dict.get? stdDevKey with
  | none => Except.ok st
  | some stdDevString =>
    let meanKey := key ++ str "_mean"
    match dict.get? meanKey with
    | some meanString => resampleDraw env dict rng key meanString stdDevString
    | none =>
      match dict.get? key with
      | some meanString =>
        resampleDraw env (dict.set meanKey meanString) rng key meanString stdDevString
      | none => Except.error (Err.pyCrash (str "KeyError"))

/-- Fold of `resampleKey` over a snapshot of the keys. -/
def resampleKeys (env : SimDefEnv) : Table × Rng → List Str → Except Err (Table × Rng)
  | st, [] => Except.ok st
  | st, k :: ks =>
    match resampleKey env st k with
    | Except.ok st' => resampleKeys env st' ks
    | Except.error e => Except.error e

/-- `resampleProbabilisticValues()`: no-op when distribution sampling is
disabled; otherwise processes a snapshot `list(Dict.keys())` taken before
the first mutation. -/
def SimDefinition.resampleProbabilisticValues (env : SimDefEnv) (sd : SimDefinition) :
    Except Err SimDefinition :=
  if sd.disableDistributionSampling then Except.ok sd
  else
    match resampleKeys env (sd.dict, sd.rng) sd.dict.keys with
    | Except.ok (dict', rng') => Except.ok { sd with dict := dict', rng := rng' }
    | Except.error e => Except.error e

/-! ### Construction from an already-parsed dictionary -/

/-- Common tail of `__init__` once `self.dict` is known: reset the usage
trackers, look up `MonteCarlo.randomSeed` (falling back to a fresh
pseudo-random seed), seed the RNG and resample. -/
def finishInit (env : SimDefEnv) (fileName : Option Str) (dict : Table)
    (disableDistributionSampling : Bool) (defaultDict : Table) :
    Except Err SimDefinition :=
  let sd0 : SimDefinition :=
    { fileName := fileName
      dict := dict
      defaultDict := defaultDict
      disableDistributionSampling := disableDistributionSampling
      rng := ⟨Seed.fresh 0, 0⟩  -- placeholder; Python leaves self.rng unset
      unaccessedFields := dict.keys
      defaultValuesUsed := [] }
  if disableDistributionSampling then Except.ok sd0
  else
    let seeded : SimDefinition :=
      match sd0.getValue (str "MonteCarlo.randomSeed") with
      | Except.ok (randomSeed, sd1) => { sd1 with rng := ⟨Seed.ofValue randomSeed, 0⟩ }
      | Except.error _ =>
        { sd0 with rng := ⟨Seed.fresh (env.freshSeed ((fileName).getD [])), 0⟩ }
    seeded.resampleProbabilisticValues env

/-- `SimDefinition(dictionary=d)`: construction from a pre-parsed dictionary
(`fileName = None`, no file parsing, no path replacement). -/
def mkSimDefinitionFromDict (env : SimDefEnv) (dictionary : Table)
    (disableDistributionSampling : Bool) (defaultDict : Table) :
    Except Err SimDefinition :=
  finishInit env none dictionary disableDistributionSampling defaultDict


/-! ### Serialization (`writeToFile`) -/

/-- Lexicographic (code-point) order on strings, Python `s1 < s2`. -/
def strLt : Str → Str → Bool
  | [], [] => false
  | [], _ :: _ => true
  | _ :: _, [] => false
  | a :: as, b :: bs => if a < b then true else if b < a then false else strLt as bs

/-- Python tuple comparison `(k1, v1) <= (k2, v2)` for string pairs. -/
def pairLe (x y : Str × Str) : Bool :=
  if strLt x.1 y.1 then true
  else if strLt y.1 x.1 then false
  else !strLt y.2 x.2

/-- Insert into a `pairLe`-sorted list. -/
def insertPairSorted (x : Str × Str) : List (Str × Str) → List (Str × Str)
  | [] => [x]
  | y :: ys => if pairLe x y then x :: y :: ys else y :: insertPairSorted x ys

/-- `sorted(self.dict.items())`: ascending by key (then value; irrelevant for
duplicate-free keys, for which the sorted permutation is unique). -/
def sortedItems (t : Table) : List (Str × Str) :=
  t.foldr insertPairSorted []

/-- The dictionary-closing loop of `writeToFile`.  Starting from nesting
depth `d`, close one level (emitting `"\t" * (depth - 1) + "}\n"`) while the
depth exceeds the new key's dictionary path length or the single segment at
position `depth - 1` differs; break at the first position where that one
segment matches.  Returns the emitted text and the depth at which the loop
stopped. -/
def closeLoop (currDicts dicts : List Str) : Nat → Str × Nat
  | 0 => ([], 0)
  | d + 1 =>
    if d + 1 > dicts.length then
      let rest := closeLoop currDicts dicts d
      (tabs d ++ str "\x7d\n" ++ rest.1, rest.2)
    else if !(currDicts.getD d [] = dicts.getD d [] : Bool) then
      let rest := closeLoop currDicts dicts d
      (tabs d ++ str "\x7d\n" ++ rest.1, rest.2)
    else ([], d + 1)

/-- The dictionary-opening loop of `writeToFile`: open each remaining
segment with `"\n" + "\t" * depth + name + "{\n"`. -/
def openLoop : List Str → Nat → Str
  | [], _ => []
  | name :: rest, dictDepth =>
    str "\n" ++ tabs dictDepth ++ name ++ str "\x7b\n" ++ openLoop rest (dictDepth + 1)

/-- The final loop of `writeToFile` closing every still-open dictionary. -/
def closeAll : Nat → Str
  | 0 => []
  | d + 1 => tabs d ++ str "\x7d\n" ++ closeAll d

/-- `re.sub("^([^\.]*\.)+", "", key)`: the last dotted segment of the key. -/
def realKeyOf (key : Str) : Str := (pySplitChar '.' key).getLastD []

/-- Key-emitting loop of `writeToFile` over the sorted items, carrying the
list of currently open dictionary segments.  For each key whose dictionary
path differs from the open one: run the closing loop, open the missing
levels, and emit a blank spacing line if nothing was opened; then emit
`realKey + "\t" + value` at the current depth.  The value written is
`self.dict[key]`, which for duplicate-free keys is the pair's value. -/
def writeBody : List (Str × Str) → List Str → Str
  | [], currDicts => closeAll currDicts.length
  | (key, value) :: rest, currDicts =>
    let dicts := (pySplitChar '.' key).dropLast
    let transition :=
      if dicts = currDicts then []
      else
        let closed := closeLoop currDicts dicts currDicts.length
        let opened := dicts.drop closed.2
        closed.1 ++ openLoop opened closed.2 ++
          (if opened.isEmpty then str "\n" else [])
    transition ++ tabs dicts.length ++ realKeyOf key ++ '\t' :: value ++ str "\n" ++
      writeBody rest dicts

/-- `writeToFile(fileName, writeHeader)` as a function from the table to the
text written.  `now` stands for `str(datetime.now())`.  (The `dictName`
local of the source is computed but never used and is omitted.) -/
def writeToFileText (t : Table) (writeHeader : Bool) (fileName now : Str) : Str :=
  (if writeHeader then
      str "# MAPLEAF\n" ++ str "# File: " ++ fileName ++ str "\n" ++
        str "# Autowritten on: " ++ now ++ str "\n"
    else []) ++
    writeBody (sortedItems t) []

/-! ### Preprocessing of raw file text -/

/-- `re.sub("(?<!\\)#.*", "", line)` per line: cut at the first `#` that is
not immediately preceded by a backslash.  (The regex is applied to the whole
file, but `.` does not match a newline and the one-character look-behind
never crosses one, so per-line application is equivalent.) -/
def stripComment : Str → Str
  | [] => []
  | '\\' :: '#' :: rest => '\\' :: '#' :: stripComment rest
  | '#' :: _ => []
  | c :: rest => c :: stripComment rest

/-- `re.sub(r"\\(?=#)", "", line)` per line: drop each backslash that is
immediately followed by `#`. -/
def unescapeHash : Str → Str
  | [] => []
  | '\\' :: '#' :: rest => '#' :: unescapeHash rest
  | c :: rest => c :: unescapeHash rest

/-- Preprocessing of `_parseSimDefinitionFile`: strip comments, unescape
`\#`, split into lines and drop blank lines. -/
def preprocess (text : Str) : List Str :=
  ((pySplitChar '\n' text).map (fun l => unescapeHash (stripComment l))).filter
    (fun line => !(pyStrip line).isEmpty)

/-- `_replaceRelativeFilePathsWithAbsolutePaths`: values that look like
repository-relative paths or file names are rewritten through the external
path collaborators; all other values are untouched. -/
def replaceRelativeFilePaths (env : SimDefEnv) (fileName : Option Str) (t : Table) :
    Table :=
  let fileDirectory := fileName.map env.realDirname
  t.map (fun kv =>
    let v0 := kv.2
    let val := if v0.take 2 = str "./" then v0.drop 2 else v0
    let v1 := if pathIsRelativeToRepository val then env.resolve val [] else v0
    let v2 :=
      if isFileName val then
        match fileDirectory with
        | some d =>
          let possibleLocation := env.joinPath d val
          if env.pathExists possibleLocation then possibleLocation else v1
        | none => v1
      else v1
    (kv.1, v2))

/-! ### The derived-dictionary directive loop -/

/-- The `!replace <A> <B>` transformation of `_parseDerivedDictionary`:
rebuild the staged dictionary with `A` literally substring-replaced by `B`
in every staged key name and every staged value. -/
def applyReplaceTable (derivedDict : Table) (toReplace replaceWith : Str) : Table :=
  derivedDict.foldl
    (fun acc kv =>
      Table.set acc (pyReplace kv.1 toReplace replaceWith)
        (pyReplace kv.2 toReplace replaceWith))
    ([] : Table)

/-- The `while` loop of `_parseDerivedDictionary` that consumes `!replace`
and `!removeKeysContaining` directives on the lines after the `!create`
line, transforming the staged dictionary.  Stops (returning the index of
the first line not starting with `!`, from the raw line text) or fails on
an unknown `!` directive.  The `Nat` fuel is one more than the number of
lines and never runs out for the initial value `workingText.length + 1`. -/
def applyDerivedCommandsAux (workingText : List Str) :
    Nat → Nat → Table → Except Err (Table × Nat)
  | 0, _, _ => Except.error Err.outOfFuel
  | f + 1, i, derivedDict =>
    match workingText.get? i with
    | none => Except.ok (derivedDict, i)
    | some line =>
      let command := shlexSplit line
      match command.head? with
      | none => Except.error (Err.pyCrash (str "IndexError"))
      | some c0 =>
        if c0 = str "!replace" then
          match command.get? 1 with
          | none => Except.error (Err.pyCrash (str "IndexError"))
          | some arg1 =>
            let toReplace := removeQuotes arg1
            let replaceWith := removeQuotes (command.getLastD [])
            let derivedDictAfterReplace :=
              applyReplaceTable derivedDict toReplace replaceWith
            applyDerivedCommandsAux workingText f (i + 1) derivedDictAfterReplace
        else if c0 = str "!removeKeysContaining" then
          match command.get? 1 with
          | none => Except.error (Err.pyCrash (str "IndexError"))
          | some stringToDelete =>
            let derivedDict' := derivedDict.filter
              (fun kv => !isSubstring stringToDelete kv.1)
            applyDerivedCommandsAux workingText f (i + 1) derivedDict'
        else
          match line.head? with
          | none => Except.error (Err.pyCrash (str "IndexError"))
          | some c =>
            if !(c = '!') then Except.ok (derivedDict, i)
            else Except.error (Err.unknownDirective line)

/-- Entry point of the directive loop with sufficient fuel. -/
def applyDerivedCommands (workingText : List Str) (i : Nat) (derivedDict : Table) :
    Except Err (Table × Nat) :=
  applyDerivedCommandsAux workingText (workingText.length + 1) i derivedDict

/-- The merge loop at the end of `_parseDerivedDictionary`: add the staged
entries to the main table, failing on any collision with an existing key. -/
def mergeDerived : Table → Table → Except Err Table
  | tbl, [] => Except.ok tbl
  | tbl, (k, v) :: rest =>
    if !tbl.contains k then mergeDerived (tbl.set k v) rest
    else Except.error (Err.derivedKeyCollision k)

/-- Qualification of a key by the current dictionary prefix, as done
throughout `_parseDictionaryContents`: `currDictName + "." + key`, or the
bare key at root level. -/
def qualifyKey (currDictName key : Str) : Str :=
  if currDictName = [] then key else currDictName ++ '.' :: key

/-- Merge loop of the `!include` branch of `_parseDictionaryContents`: every
key of the sub-definition is re-qualified by the current prefix and
assigned unconditionally (`Dict[key] = subDef.dict[subDefkey]`). -/
def mergeInclude (tbl : Table) (currDictName : Str) (subDict : Table) : Table :=
  subDict.foldl (fun acc kv => Table.set acc (qualifyKey currDictName kv.1) kv.2) tbl

/-- Staging copy of `_parseDerivedDictionary`: every source key is renamed
with `parentKey.replace(dictPath, derivedDictName)` — a replacement of every
occurrence of `dictPath`, not only of the leading prefix — and mapped to its
unchanged source value. -/
def buildDerivedDict (keysInParentDict : List Str) (sourceDict : Table)
    (dictPath derivedDictName : Str) : Table :=
  keysInParentDict.foldl
    (fun acc parentKey =>
      Table.set acc (pyReplace parentKey dictPath derivedDictName)
        ((sourceDict.get? parentKey).getD []))
    ([] : Table)

/-! ### The mutually recursive parser, fueled -/

/-- The mutually recursive operations of the module, packaged so that the
recursion is structural in a fuel parameter (one unit per call).  At fuel
`0` every operation reports `Err.outOfFuel`; all concrete theorems supply
ample fuel. -/
structure ParserFns where
  /-- `SimDefinition(fileName, ..., simDefParseStack=stack)`:
  file name, parse stack, `disableDistributionSampling`, `defaultDict`. -/
  mkSimDef : Str → List Str → Bool → Table → Except Err SimDefinition
  /-- `_parseSimDefinitionFile(fileName)` (with the parse stack). -/
  parseFile : Str → List Str → Except Err Table
  /-- `_parseDictionaryContents(Dict, workingText, startLine, currDictName,
  allowKeyOverwriting)`; returns the updated table and the index of the
  closing-brace line (`none` when the text is exhausted, where Python
  implicitly returns `None`). -/
  parseDict : Str → List Str → Table → List Str → Nat → Str → Bool →
    Except Err (Table × Option Nat)
  /-- `_parseDerivedDictionary(Dict, workingText, initializationLine,
  currDictName)`. -/
  parseDerived : Str → List Str → Table → List Str → Nat → Str →
    Except Err (Table × Option Nat)
  /-- `_loadSubSimDefinition(path)`. -/
  loadSub : Str → List Str → Str → Except Err SimDefinition

/-- The fuel-exhausted pack. -/
def noFuelFns : ParserFns where
  mkSimDef := fun _ _ _ _ => Except.error Err.outOfFuel
  parseFile := fun _ _ => Except.error Err.outOfFuel
  parseDict := fun _ _ _ _ _ _ _ => Except.error Err.outOfFuel
  parseDerived := fun _ _ _ _ _ _ => Except.error Err.outOfFuel
  loadSub := fun _ _ _ => Except.error Err.outOfFuel

/-- The parser at a given fuel.  Each field is the line-by-line translation
of the corresponding Python method; every (mutual) recursive call goes
through the pack one fuel level down. -/
def parserFns (env : SimDefEnv) : Nat → ParserFns
  | 0 => noFuelFns
  | n + 1 =>
    let prev := parserFns env n
    { mkSimDef := fun fileName stack disableDistributionSampling defaultDict =>
        match prev.parseFile fileName stack with
        | Except.ok dict =>
          finishInit env (some fileName) dict disableDistributionSampling defaultDict
        | Except.error e => Except.error e
      parseFile := fun fileName stack =>
        match env.files fileName with
        | none => Except.error (Err.fileNotFound fileName)
        | some text =>
          let workingText := preprocess text
          match prev.parseDict fileName stack [] workingText 0 [] false with
          | Except.ok (tbl, _) =>
            Except.ok (replaceRelativeFilePaths env (some fileName) tbl)
          | Except.error e => Except.error e
      parseDict := fun fileName stack tbl workingText i currDictName allowKeyOverwriting =>
        match workingText.get? i with
        | none => Except.ok (tbl, none)
        | some rawLine =>
          let line := pyStrip rawLine
          let splitLine := pySplitWS line
          match splitLine.head? with
          | none => Except.error (Err.pyCrash (str "IndexError"))
          | some tok0 =>
            if tok0 = str "!create" then
              match prev.parseDerived fileName stack tbl workingText i currDictName with
              | Except.ok (tbl', some i') =>
                prev.parseDict fileName stack tbl' workingText (i' + 1) currDictName
                  allowKeyOverwriting
              | Except.ok (_, none) => Except.error (Err.pyCrash (str "TypeError"))
              | Except.error e => Except.error e
            else if tok0 = str "!include" then
              match pyIndexOf ' ' line with
              | none => Except.error (Err.pyCrash (str "ValueError"))
              | some j =>
                let filePath := pyStrip (line.drop j)
                match prev.loadSub fileName stack filePath with
                | Except.ok subDef =>
                  prev.parseDict fileName stack (mergeInclude tbl currDictName subDef.dict)
                    workingText (i + 1) currDictName allowKeyOverwriting
                | Except.error e => Except.error e
            else if line.getLastD ' ' = '\x7b' then
              let subDictName := line.dropLast
              let newName :=
                if currDictName = [] then subDictName
                else currDictName ++ '.' :: subDictName
              match prev.parseDict fileName stack tbl workingText (i + 1) newName
                  allowKeyOverwriting with
              | Except.ok (tbl', some i') =>
                prev.parseDict fileName stack tbl' workingText (i' + 1) currDictName
                  allowKeyOverwriting
              | Except.ok (_, none) => Except.error (Err.pyCrash (str "TypeError"))
              | Except.error e => Except.error e
            else if line = str "\x7d" then Except.ok (tbl, some i)
            else if splitLine.length > 1 then
              let key := tok0
              let value := joinSpaces splitLine.tail
              let keyString :=
                if currDictName = [] then key else currDictName ++ '.' :: key
              if !tbl.contains keyString || allowKeyOverwriting then
                prev.parseDict fileName stack (tbl.set keyString value) workingText
                  (i + 1) currDictName allowKeyOverwriting
              else Except.error (Err.duplicateKey keyString fileName)
            else Except.error (Err.malformedLine i line)
      parseDerived := fun fileName stack tbl workingText i currDictName =>
        match workingText.get? i with
        | none => Except.error (Err.pyCrash (str "IndexError"))
        | some initLine =>
          let definitionLine := shlexSplit initLine
          match definitionLine.get? 1 with
          | none => Except.error (Err.pyCrash (str "IndexError"))
          | some name1 =>
            let derivedDictName :=
              if currDictName = [] then name1 else currDictName ++ '.' :: name1
            let lastTok := definitionLine.getLastD []
            let dictPath0 :=
              if lastTok.getLastD ' ' = '\x7b' then lastTok.dropLast else lastTok
            let loaded : Except Err (Str × Table × List Str) :=
              if dictPath0.contains ':' then
                let parts := pySplitChar ':' dictPath0
                match prev.loadSub fileName stack (parts.headD []) with
                | Except.ok subSimDef =>
                  let dictPath := parts.getD 1 []
                  Except.ok (dictPath, subSimDef.dict,
                    getSubKeysOf dictPath subSimDef.dict)
                | Except.error e => Except.error e
              else Except.ok (dictPath0, tbl, getSubKeysOf dictPath0 tbl)
            match loaded with
            | Except.error e => Except.error e
            | Except.ok (dictPath, sourceDict, keysInParentDict) =>
              if keysInParentDict.length = 0 then
                Except.error (Err.unknownSourceDict dictPath derivedDictName fileName)
              else
                let derivedDict :=
                  buildDerivedDict keysInParentDict sourceDict dictPath derivedDictName
                match applyDerivedCommands workingText (i + 1) derivedDict with
                | Except.error e => Except.error e
                | Except.ok (derivedDict', i') =>
                  match mergeDerived tbl derivedDict' with
                  | Except.error e => Except.error e
                  | Except.ok tbl' =>
                    prev.parseDict fileName stack tbl' workingText i' derivedDictName
                      true
      loadSub := fun fileName stack path =>
        let filePath := env.resolve path (env.parentDir fileName)
        if filePath ∈ stack then
          Except.error (Err.circularInclude fileName filePath stack)
        else prev.mkSimDef filePath (filePath :: stack) false defaultConfigValues }

/-- `SimDefinition(fileName)` at top level: the parse stack is initialised
to the singleton of the requested file name. -/
def SimDefinition.fromFile (env : SimDefEnv) (fuel : Nat) (fileName : Str)
    (disableDistributionSampling : Bool) (defaultDict : Table) :
    Except Err SimDefinition :=
  (parserFns env fuel).mkSimDef fileName [fileName] disableDistributionSampling
    defaultDict

/-- `_parseSimDefinitionFile` at top level. -/
def parseSimDefinitionFile (env : SimDefEnv) (fuel : Nat) (fileName : Str) :
    Except Err Table :=
  (parserFns env fuel).parseFile fileName [fileName]


/-! ### Concrete instances used by the claim theorems -/

/-- The `SimDefinition` of the specification example for class-based
defaults: instance `{"Rocket.Fin1.class": "FinSet"}`, default table
`{"FinSet.shape": "tapered"}`. -/
def c2ExampleSd : SimDefinition where
  fileName := none
  dict := [(str "Rocket.Fin1.class", str "FinSet")]
  defaultDict := [(str "FinSet.shape", str "tapered")]
  disableDistributionSampling := true
  rng := ⟨Seed.fresh 0, 0⟩
  unaccessedFields := [str "Rocket.Fin1.class"]
  defaultValuesUsed := []

/-- A concrete environment for the external collaborators: path resolution
is the identity, no file exists on disk, `float` parsing always succeeds and
the Gaussian sampler is a fixed function of the draw position. -/
def plainEnv : SimDefEnv where
  files := fun _ => none
  resolve := fun p _ => p
  parentDir := fun _ => []
  realDirname := fun _ => str "DIR"
  joinPath := fun a b => a ++ '/' :: b
  pathExists := fun _ => false
  freshSeed := fun _ => 7
  isFloat := fun _ => true
  vecComponents := fun _ => none
  gauss := fun _ pos _ _ => 'd' :: List.replicate pos '+'
  vecToString := fun a b c => a ++ b ++ c

/-- File system for C3: `main` declares `x 1` and then includes `sub`,
which declares `x 2`. -/
def c3Env : SimDefEnv := { plainEnv with
  files := fun f =>
    if f = str "main" then some (str "x 1\n!include sub")
    else if f = str "sub" then some (str "x 2") else none }

/-- File system for C4: `A` includes `B` and `B` includes `A`. -/
def c4Env : SimDefEnv := { plainEnv with
  files := fun f =>
    if f = str "A" then some (str "!include B")
    else if f = str "B" then some (str "!include A") else none }

/-- File system for C6: `Stage2.mass` pre-exists before
`!create Stage2 from Stage1` runs. -/
def c6Env : SimDefEnv := { plainEnv with
  files := fun f =>
    if f = str "h" then
      some (str "Stage1\x7b\nmass 10\n\x7d\nStage2\x7b\nmass 99\n\x7d\n!create Stage2 from Stage1\x7b\n\x7d")
    else none }

/-- A one-key instance table for the `findKeysContaining` claims. -/
def c9ExampleSd : SimDefinition where
  fileName := none
  dict := [(str "a", str "1")]
  defaultDict := []
  disableDistributionSampling := true
  rng := ⟨Seed.fresh 0, 0⟩
  unaccessedFields := [str "a"]
  defaultValuesUsed := []

/-- Instance table with one immediate sub-key (`Rocket.name`) and one
immediate sub-dictionary (`Rocket.Stage`) that is not itself a key. -/
def c10ExampleSd : SimDefinition where
  fileName := none
  dict := [(str "Rocket.name", str "R"), (str "Rocket.Stage.mass", str "1")]
  defaultDict := []
  disableDistributionSampling := true
  rng := ⟨Seed.fresh 0, 0⟩
  unaccessedFields := [str "Rocket.name", str "Rocket.Stage.mass"]
  defaultValuesUsed := []

/-- A valid flat table: two dotted keys under different parents that share
the innermost dictionary name `C`. -/
def c1Table : Table := [(str "A.C.k", str "1"), (str "B.C.k", str "2")]

/-- The text `writeToFile` produces for `c1Table` (with the header). -/
def c1WrittenText : Str :=
  writeToFileText c1Table true (str "out.mapleaf") (str "2026-10-12 00:00:00")

/-- File system serving the serialized text back to the parser. -/
def c1ReadEnv : SimDefEnv := { plainEnv with
  files := fun f => if f = str "out.mapleaf" then some c1WrittenText else none }

/-- File system with a hand-written definition file whose parse is exactly
`c1Table`, showing the table is a legitimate parser output. -/
def c1HandEnv : SimDefEnv := { plainEnv with
  files := fun f =>
    if f = str "hand.mapleaf" then
      some (str "A\x7b\nC\x7b\nk 1\n\x7d\n\x7d\nB\x7b\nC\x7b\nk 2\n\x7d\n\x7d")
    else none }


/-- `n` successive calls of `resampleProbabilisticValues` (stopping at the
first failure). -/
def resampleN (env : SimDefEnv) : Nat → SimDefinition → Except Err SimDefinition
  | 0, sd => Except.ok sd
  | n + 1, sd =>
    match sd.resampleProbabilisticValues env with
    | Except.ok sd1 => resampleN env n sd1
    | Except.error e => Except.error e

/-- Concrete probabilistic definition for the C7 witness: `X = 5` with
`X_stdDev = 0.1`. -/
def c7ExampleSd : SimDefinition where
  fileName := none
  dict := [(str "X", str "5"), (str "X_stdDev", str "0.1")]
  defaultDict := []
  disableDistributionSampling := false
  rng := ⟨Seed.ofValue (str "228"), 0⟩
  unaccessedFields := [str "X", str "X_stdDev"]
  defaultValuesUsed := []

/-- Table for the C8 witness: a probabilistic `X` and an explicit seed. -/
def c8Dict : Table :=
  [(str "X", str "5"), (str "X_stdDev", str "0.1"),
    (str "MonteCarlo.randomSeed", str "228")]

/-- Probabilistic table for the C7 counterexample: `X_mean_stdDev` is
itself a key, so `X_mean` is treated as a probabilistic parameter on the
run after it is created. -/
def c7BadSd : SimDefinition where
  fileName := none
  dict := [(str "X", str "5"), (str "X_stdDev", str "0.1"),
    (str "X_mean_stdDev", str "9")]
  defaultDict := []
  disableDistributionSampling := false
  rng := ⟨Seed.ofValue (str "228"), 0⟩
  unaccessedFields := [str "X", str "X_stdDev", str "X_mean_stdDev"]
  defaultValuesUsed := []

/-! ### Basic lemmas about the table and string model -/

theorem Table.get?_set (t : Table) (k v q : Str) :
    (t.set k v).get? q = if k = q then some v else t.get? q := by
  induction t with
  | nil =>
    by_cases h : k = q <;> simp [Table.set, Table.get?, h]
  | cons kv rest ih =>
    obtain ⟨k', v'⟩ := kv
    by_cases h1 : k' = k
    · subst h1
      by_cases h2 : k' = q <;> simp [Table.set, Table.get?, h2]
    · by_cases h2 : k' = q
      · have hkq : ¬k = q := fun h => h1 (h2.trans h.symm)
        have hqk : ¬q = k := fun h => h1 (h2.trans h)
        simp [Table.set, Table.get?, h1, h2, hkq, hqk]
      · simp [Table.set, Table.get?, h1, h2, ih]

theorem Table.contains_set (t : Table) (k v q : Str) :
    (t.set k v).contains q = (decide (k = q) || t.contains q) := by
  by_cases h : k = q <;> simp [Table.contains, Table.get?_set, h]

theorem Table.contains_iff_mem_keys (t : Table) (k : Str) :
    t.contains k = true ↔ k ∈ t.keys := by
  induction t with
  | nil => simp [Table.contains, Table.get?, Table.keys]
  | cons kv rest ih =>
    obtain ⟨k', v'⟩ := kv
    by_cases h : k' = k
    · subst h; simp [Table.contains, Table.get?, Table.keys]
    · have hne : ¬k = k' := fun hh => h hh.symm
      simp [Table.contains, Table.get?, Table.keys, h, hne] at ih ⊢
      exact ih

theorem Table.get?_eq_some_mem_keys (t : Table) (k v : Str)
    (h : t.get? k = some v) : k ∈ t.keys := by
  rw [← Table.contains_iff_mem_keys]
  simp [Table.contains, h]

theorem mem_addToSet (x y : Str) (l : List Str) :
    x ∈ addToSet y l ↔ x ∈ l ∨ x = y := by
  unfold addToSet
  by_cases h : y ∈ l
  · simp only [if_pos h]
    constructor
    · exact fun hx => Or.inl hx
    · rintro (hx | rfl)
      · exact hx
      · exact h
  · simp [if_neg h]

theorem append_length_ne {s : Str} (K : Str) (h : s ≠ []) : K ++ s ≠ K := by
  intro he
  have hl := congrArg List.length he
  simp only [List.length_append] at hl
  have : s.length = 0 := by omega
  exact h (List.length_eq_zero.mp this)

theorem append_right_inj {J K s : Str} (h : J ++ s = K ++ s) : J = K :=
  List.append_cancel_right h

theorem append_ne_of_last_ne {s1 s2 : Str} (J Q : Str)
    (c1 c2 : Char) (t1 t2 : Str)
    (h1 : s1.reverse = c1 :: t1) (h2 : s2.reverse = c2 :: t2)
    (hne : c1 ≠ c2) : J ++ s1 ≠ Q ++ s2 := by
  intro h
  have hrev := congrArg List.reverse h
  rw [List.reverse_append, List.reverse_append, h1, h2] at hrev
  simp only [List.cons_append, List.cons.injEq] at hrev
  exact hne hrev.1

theorem mean_append_ne_stdDev_append (J Q : Str) :
    J ++ str "_mean" ≠ Q ++ str "_stdDev" := by
  apply append_ne_of_last_ne J Q 'n' 'v' (str "aem_") (str "eDdts_")
  · rfl
  · rfl
  · decide

theorem eq_mean_append_suffix {J K : Str} (h : J ++ str "_mean" = K) :
    str "_mean" <:+ K := by
  subst h
  exact List.suffix_append J (str "_mean")

/-! ### C9 and C10 support -/

theorem foldl_immediate_mem (dict : Table) (key : Str) (k : Str) :
    ∀ (l acc : List Str),
    (k ∈ l.foldl
        (fun results potentialChildKey =>
          if isSubKey key potentialChildKey then
            match getImmediateSubKey key potentialChildKey with
            | some immediateSubkey =>
              if dict.contains immediateSubkey then addToSet immediateSubkey results
              else results
            | none => results
          else results)
        acc) ↔
      k ∈ acc ∨ (dict.contains k = true ∧
        ∃ c, c ∈ l ∧ isSubKey key c = true ∧ getImmediateSubKey key c = some k) := by
  intro l
  induction l with
  | nil => simp
  | cons c cs ih =>
    intro acc
    simp only [List.foldl_cons]
    by_cases h1 : isSubKey key c = true
    · cases h2 : getImmediateSubKey key c with
      | none =>
        simp only [h1, if_pos, h2]
        rw [ih]
        constructor
        · rintro (ha | ⟨hc, d, hd, hsk, him⟩)
          · exact Or.inl ha
          · exact Or.inr ⟨hc, d, List.mem_cons_of_mem c hd, hsk, him⟩
        · rintro (ha | ⟨hc, d, hd, hsk, him⟩)
          · exact Or.inl ha
          · rcases List.mem_cons.mp hd with rfl | hd'
            · rw [h2] at him; exact absurd him (by simp)
            · exact Or.inr ⟨hc, d, hd', hsk, him⟩
      | some isk =>
        by_cases h3 : dict.contains isk = true
        · simp only [h1, if_pos, h2, h3, if_true]
          rw [ih]
          constructor
          · rintro (ha | ⟨hc, d, hd, hsk, him⟩)
            · rcases (mem_addToSet k isk acc).mp ha with ha' | rfl
              · exact Or.inl ha'
              · exact Or.inr ⟨h3, c, List.mem_cons_self c cs, h1, h2⟩
            · exact Or.inr ⟨hc, d, List.mem_cons_of_mem c hd, hsk, him⟩
          · rintro (ha | ⟨hc, d, hd, hsk, him⟩)
            · exact Or.inl ((mem_addToSet k isk acc).mpr (Or.inl ha))
            · rcases List.mem_cons.mp hd with rfl | hd'
              · rw [h2] at him
                have : isk = k := by injection him
                subst this
                exact Or.inl ((mem_addToSet isk isk acc).mpr (Or.inr rfl))
              · exact Or.inr ⟨hc, d, hd', hsk, him⟩
        · simp only [h1, if_pos, h2, h3, if_false]
          rw [ih]
          constructor
          · rintro (ha | ⟨hc, d, hd, hsk, him⟩)
            · exact Or.inl ha
            · exact Or.inr ⟨hc, d, List.mem_cons_of_mem c hd, hsk, him⟩
          · rintro (ha | ⟨hc, d, hd, hsk, him⟩)
            · exact Or.inl ha
            · rcases List.mem_cons.mp hd with rfl | hd'
              · rw [h2] at him
                have : isk = k := by injection him
                subst this
                exact absurd hc h3
              · exact Or.inr ⟨hc, d, hd', hsk, him⟩
    · simp only [h1]
      rw [if_neg (by simp at h1; simp [h1]), ih]
      constructor
      · rintro (ha | ⟨hc, d, hd, hsk, him⟩)
        · exact Or.inl ha
        · exact Or.inr ⟨hc, d, List.mem_cons_of_mem c hd, hsk, him⟩
      · rintro (ha | ⟨hc, d, hd, hsk, him⟩)
        · exact Or.inl ha
        · rcases List.mem_cons.mp hd with rfl | hd'
          · exact absurd hsk (by simpa using h1)
          · exact Or.inr ⟨hc, d, hd', hsk, him⟩

/-- C10: `getImmediateSubKeys(P)` returns exactly the one-level-deeper
prefixes of `P`'s sub-keys that are themselves present as keys of the
instance table; an immediate sub-dictionary name that is not itself a key
with a value is never returned. -/
theorem claim_c10_immediate_subkeys (sd : SimDefinition) (key k : Str) :
    k ∈ sd.getImmediateSubKeys key ↔
      (sd.dict.contains k = true ∧
        ∃ c, c ∈ sd.dict.keys ∧ isSubKey key c = true ∧
          getImmediateSubKey key c = some k) := by
  unfold SimDefinition.getImmediateSubKeys
  rw [foldl_immediate_mem sd.dict key k sd.dict.keys []]
  simp

/-- C9 (amended): `findKeysContaining` returns the keys containing every
query substring when at least one matches, and returns `None` — not an
empty list — when nothing matches; it never fails. -/
theorem claim_c9_amended (sd : SimDefinition) (qs : List Str) :
    (sd.findKeysContaining qs = none ↔
      ∀ c ∈ sd.dict.keys, ¬(∀ q ∈ qs, isSubstring q c = true))
    ∧ (∀ l, sd.findKeysContaining qs = some l →
        l ≠ [] ∧ ∀ c, c ∈ l ↔ (c ∈ sd.dict.keys ∧ ∀ q ∈ qs, isSubstring q c = true)) := by
  have hset : ∀ c, (c ∈ sd.dict.keys.filter
        (fun key => qs.all (fun sq => isSubstring sq key))) ↔
      (c ∈ sd.dict.keys ∧ ∀ q ∈ qs, isSubstring q c = true) := by
    intro c
    rw [List.mem_filter]
    simp [List.all_eq_true]
  unfold SimDefinition.findKeysContaining
  cases hM : sd.dict.keys.filter (fun key => qs.all (fun sq => isSubstring sq key)) with
  | nil =>
    simp only [hM, List.length_nil, gt_iff_lt, Nat.lt_irrefl, if_false]
    constructor
    · simp only [true_iff]
      intro c hck hall
      have hmem : c ∈ ([] : List Str) := by
        rw [← hM]
        exact (hset c).mpr ⟨hck, hall⟩
      simp at hmem
    · intro l hl
      exact absurd hl (by simp)
  | cons c0 cs =>
    simp only [hM, List.length_cons, gt_iff_lt, Nat.succ_pos, if_true]
    constructor
    · simp only [reduceCtorEq, false_iff]
      intro hall
      have hc0 : c0 ∈ sd.dict.keys ∧ ∀ q ∈ qs, isSubstring q c0 = true := by
        apply (hset c0).mp
        rw [hM]
        exact List.mem_cons_self c0 cs
      exact hall c0 hc0.1 hc0.2
    · intro l hl
      have hleq : c0 :: cs = l := by injection hl
      subst hleq
      refine ⟨by simp, fun c => ?_⟩
      rw [← hM]
      exact hset c

/-! ### C2: class-based default resolution -/

theorem pySplitCharAux_ne_nil (sep : Char) :
    ∀ (sIn cur : Str), pySplitCharAux sep sIn cur ≠ [] := by
  intro sIn
  induction sIn with
  | nil => intro cur; simp [pySplitCharAux]
  | cons c rest ih =>
    intro cur
    by_cases h : c = sep <;> simp [pySplitCharAux, h, ih]

theorem pySplitChar_ne_nil (sep : Char) (sIn : Str) : pySplitChar sep sIn ≠ [] :=
  pySplitCharAux_ne_nil sep sIn []

/-- Levels above `L` that carry no `.class` entry are skipped by the search
loop without any other effect. -/
theorem classDefaultAux_skip (sd : SimDefinition) (key : Str) (L : Nat) :
    ∀ n, L + 1 ≤ n →
    (∀ M, L < M → M < n →
      sd.dict.get? ((splitKeyAtLevel key M).1 ++ str ".class") = none) →
    classDefaultAux sd key n = classDefaultAux sd key (L + 1) := by
  intro n
  induction n with
  | zero => intro h; omega
  | succ m ih =>
    intro hle habove
    by_cases heq : m = L
    · subst heq; rfl
    · have hM := habove m (by omega) (by omega)
      have hstep : classDefaultAux sd key (m + 1) = classDefaultAux sd key m := by
        simp only [classDefaultAux, hM]
      rw [hstep]
      exact ih (by omega) (fun M h1 h2 => habove M h1 (by omega))

/-- C2: for a key absent from both the instance table and the flat default
table, the search walks levels `level(key)` down to `0`; at the deepest
level owning a `prefix + ".class"` entry, the class-based default is
returned when `classValue + "." + suffix` is in the default table, and
otherwise `getValue` fails immediately with the key-not-found error,
without retrying shallower levels. -/
theorem claim_c2_class_default (sd : SimDefinition) (key pre suf className : Str)
    (L : Nat)
    (hne : key ≠ [])
    (hstrip : pyStrip key = key)
    (hmain : sd.dict.get? key = none)
    (hdef : sd.defaultDict.get? key = none)
    (hL : L < (pySplitChar '.' key).length)
    (hsplit : splitKeyAtLevel key L = (pre, suf))
    (hclass : sd.dict.get? (pre ++ str ".class") = some className)
    (habove : ∀ M, L < M → M < (pySplitChar '.' key).length →
      sd.dict.get? ((splitKeyAtLevel key M).1 ++ str ".class") = none) :
    (∀ v, sd.defaultDict.get? (className ++ '.' :: suf) = some v →
      ∃ sd', sd.getValue key = Except.ok (v, sd'))
    ∧ (sd.defaultDict.get? (className ++ '.' :: suf) = none →
      sd.getValue key = Except.error (Err.keyNotFound key sd.fileName)) := by
  have hlen0 : ¬key.length = 0 := fun h => hne (List.length_eq_zero.mp h)
  have hfuel : (getKeyLevel key + 1).toNat = (pySplitChar '.' key).length := by
    unfold getKeyLevel
    rw [if_neg hlen0]
    omega
  have hsearch : sd.getClassBasedDefaultValue key =
      classDefaultAux sd key (L + 1) := by
    unfold SimDefinition.getClassBasedDefaultValue
    rw [hfuel]
    exact classDefaultAux_skip sd key L _ (by omega) habove
  have haux : classDefaultAux sd key (L + 1) =
      match sd.defaultDict.get? (className ++ '.' :: suf) with
      | some v =>
        some (v,
          { sd with
            defaultValuesUsed := addToSet (className ++ '.' :: suf) sd.defaultValuesUsed,
            unaccessedFields := sd.unaccessedFields.erase (pre ++ str ".class") })
      | none => none := by
    simp only [classDefaultAux, hsplit, hclass]
  constructor
  · intro v hv
    refine ⟨{ sd with
        defaultValuesUsed := addToSet (className ++ '.' :: suf) sd.defaultValuesUsed,
        unaccessedFields := sd.unaccessedFields.erase (pre ++ str ".class") }, ?_⟩
    simp only [SimDefinition.getValue, hstrip, hmain, hdef, hsearch, haux, hv]
  · intro hv
    simp only [SimDefinition.getValue, hstrip, hmain, hdef, hsearch, haux, hv]

theorem claim_c2_witness :
    (∃ sd', c2ExampleSd.getValue (str "Rocket.Fin1.shape")
        = Except.ok (str "tapered", sd'))
    ∧ c2ExampleSd.getValue (str "Rocket.Fin1.mass")
        = Except.error (Err.keyNotFound (str "Rocket.Fin1.mass") none) := by
  have habove1 : ∀ M, 1 < M → M < (pySplitChar '.' (str "Rocket.Fin1.shape")).length →
      c2ExampleSd.dict.get? ((splitKeyAtLevel (str "Rocket.Fin1.shape") M).1 ++ str ".class") = none := by
    intro M h1 h2
    rw [show (pySplitChar '.' (str "Rocket.Fin1.shape")).length = 3 from rfl] at h2
    have hM : M = 2 := by omega
    subst hM
    rfl
  have habove2 : ∀ M, 1 < M → M < (pySplitChar '.' (str "Rocket.Fin1.mass")).length →
      c2ExampleSd.dict.get? ((splitKeyAtLevel (str "Rocket.Fin1.mass") M).1 ++ str ".class") = none := by
    intro M h1 h2
    rw [show (pySplitChar '.' (str "Rocket.Fin1.mass")).length = 3 from rfl] at h2
    have hM : M = 2 := by omega
    subst hM
    rfl
  constructor
  · exact (claim_c2_class_default c2ExampleSd (str "Rocket.Fin1.shape")
      (str "Rocket.Fin1") (str "shape") (str "FinSet") 1
      (by decide) rfl rfl rfl (by decide) rfl rfl habove1).1 (str "tapered") rfl
  · exact (claim_c2_class_default c2ExampleSd (str "Rocket.Fin1.mass")
      (str "Rocket.Fin1") (str "mass") (str "FinSet") 1
      (by decide) rfl rfl rfl (by decide) rfl rfl habove2).2 rfl


/-! ### Generic lemmas about `foldl`-with-`set` merges -/

theorem foldl_set_get? {α : Type} (keyf valf : α → Str) :
    ∀ (l : List α) (acc : Table) (q : Str),
      (l.foldl (fun a x => Table.set a (keyf x) (valf x)) acc).get? q =
        match l.reverse.find? (fun x => decide (keyf x = q)) with
        | some x => some (valf x)
        | none => acc.get? q := by
  intro l
  induction l with
  | nil => intro acc q; simp
  | cons b rest ih =>
    intro acc q
    simp only [List.foldl_cons, List.reverse_cons, List.find?_append]
    rw [ih]
    cases hf : rest.reverse.find? (fun x => decide (keyf x = q)) with
    | some x => simp [hf]
    | none =>
      simp only [hf, Option.none_or]
      rw [Table.get?_set]
      by_cases hb : keyf b = q
      · simp [List.find?, hb]
      · simp [List.find?, hb]

theorem foldl_set_get?_untouched {α : Type} (keyf valf : α → Str)
    (l : List α) (acc : Table) (q : Str)
    (h : ∀ x ∈ l, keyf x ≠ q) :
    (l.foldl (fun a x => Table.set a (keyf x) (valf x)) acc).get? q = acc.get? q := by
  rw [foldl_set_get? keyf valf]
  have hn : l.reverse.find? (fun x => decide (keyf x = q)) = none := by
    rw [List.find?_eq_none]
    intro x hx
    simp [h x (List.mem_reverse.mp hx)]
  rw [hn]

theorem foldl_set_get?_mem {α : Type} (keyf valf : α → Str)
    (l : List α) (acc : Table) (k : α) (hk : k ∈ l)
    (hcompat : ∀ b ∈ l, keyf b = keyf k → valf b = valf k) :
    (l.foldl (fun a x => Table.set a (keyf x) (valf x)) acc).get? (keyf k)
      = some (valf k) := by
  rw [foldl_set_get? keyf valf]
  cases hf : l.reverse.find? (fun x => decide (keyf x = keyf k)) with
  | none =>
    rw [List.find?_eq_none] at hf
    have := hf k (List.mem_reverse.mpr hk)
    simp at this
  | some x =>
    have hx : keyf x = keyf k := by
      have := List.find?_some hf
      simpa using this
    have hxm : x ∈ l := List.mem_reverse.mp (List.mem_of_find?_eq_some hf)
    show some (valf x) = some (valf k)
    rw [hcompat x hxm hx]

theorem Table.get?_some_mem (t : Table) (k v : Str) (h : t.get? k = some v) :
    (k, v) ∈ t := by
  induction t with
  | nil => simp [Table.get?] at h
  | cons kv rest ih =>
    obtain ⟨k', v'⟩ := kv
    by_cases heq : k' = k
    · subst heq
      have hv : v' = v := by
        simpa [Table.get?] using h
      subst hv
      exact List.mem_cons_self _ _
    · simp only [Table.get?, if_neg heq] at h
      exact List.mem_cons_of_mem _ (ih h)

theorem nodup_keys_val_eq (t : Table) (hnd : t.keys.Nodup) (a u w : Str)
    (h1 : (a, u) ∈ t) (h2 : (a, w) ∈ t) : u = w := by
  induction t with
  | nil => cases h1
  | cons kv rest ih =>
    obtain ⟨k0, v0⟩ := kv
    have hnd' : ¬k0 ∈ Table.keys rest ∧ (Table.keys rest).Nodup := by
      simpa [Table.keys] using hnd
    rcases List.mem_cons.mp h1 with he1 | h1'
    · have ha : a = k0 := congrArg Prod.fst he1
      have hu : u = v0 := congrArg Prod.snd he1
      rcases List.mem_cons.mp h2 with he2 | h2'
      · have hw : w = v0 := congrArg Prod.snd he2
        rw [hu, hw]
      · exfalso
        apply hnd'.1
        rw [← ha]
        exact List.mem_map_of_mem Prod.fst h2'
    · rcases List.mem_cons.mp h2 with he2 | h2'
      · exfalso
        apply hnd'.1
        have ha2 : a = k0 := congrArg Prod.fst he2
        rw [← ha2]
        exact List.mem_map_of_mem Prod.fst h1'
      · exact ih hnd'.2 h1' h2'

theorem qualifyKey_inj {currDictName a b : Str}
    (h : qualifyKey currDictName a = qualifyKey currDictName b) : a = b := by
  unfold qualifyKey at h
  by_cases hc : currDictName = []
  · simpa [hc] using h
  · rw [if_neg hc, if_neg hc] at h
    have := List.append_cancel_left h
    injection this

/-! ### Concrete environments for the parser claims -/

/-! ### C3: duplicate keys in `!include` merges -/

/-- C3 counterexample: a key merged from an `!include` that already exists
in the table does not raise any error (the claim predicts
`DuplicateKeyError`): parsing `main` (not in overwrite mode) succeeds, and
the merged value has silently overwritten the earlier `x 1`. -/
theorem claim_c3_counterexample :
    (SimDefinition.fromFile c3Env 50 (str "main") false defaultConfigValues).map
      SimDefinition.dict = Except.ok [(str "x", str "2")] := rfl

/-- C3 (amended): the `!include` merge assigns each re-qualified key
unconditionally — an existing key is silently overwritten with the included
value, and no error is possible; keys not targeted by the merge keep their
previous values. -/
theorem claim_c3_amended (tbl : Table) (currDictName : Str) (subDict : Table)
    (hnd : subDict.keys.Nodup) :
    (∀ k v, subDict.get? k = some v →
      (mergeInclude tbl currDictName subDict).get? (qualifyKey currDictName k)
        = some v)
    ∧ (∀ q, (∀ k ∈ subDict.keys, qualifyKey currDictName k ≠ q) →
      (mergeInclude tbl currDictName subDict).get? q = tbl.get? q) := by
  constructor
  · intro k v hkv
    have hmem : (k, v) ∈ subDict := Table.get?_some_mem _ _ _ hkv
    have hcompat : ∀ b ∈ subDict,
        (fun kv => qualifyKey currDictName kv.1) b
          = (fun kv => qualifyKey currDictName kv.1) (k, v) →
        (fun kv => kv.2) b = (fun kv => kv.2) (k, v) := by
      intro b hb hqb
      have hb1 : b.1 = k := qualifyKey_inj hqb
      have hbmem : (k, b.2) ∈ subDict := by
        rw [← hb1]
        exact hb
      exact nodup_keys_val_eq subDict hnd k b.2 v hbmem hmem
    have := foldl_set_get?_mem (fun kv => qualifyKey currDictName kv.1)
      (fun kv => kv.2) subDict tbl (k, v) hmem hcompat
    exact this
  · intro q hq
    exact foldl_set_get?_untouched (fun kv => qualifyKey currDictName kv.1)
      (fun kv => kv.2) subDict tbl q
      (fun kv hkv => hq kv.1 (List.mem_map_of_mem Prod.fst hkv))

theorem claim_c3_amended_witness :
    (mergeInclude [(str "x", str "1")] [] [(str "x", str "2")]).get?
      (qualifyKey [] (str "x")) = some (str "2") :=
  (claim_c3_amended [(str "x", str "1")] [] [(str "x", str "2")] (by decide)).1
    (str "x") (str "2") rfl

/-! ### C4: circular include detection -/

/-- C4: a requested file whose resolved path is already on the active parse
stack fails with the circular-include error carrying the requesting file,
the target and the stack; in particular two files including each other fail
this way from the top-level constructor. -/
theorem claim_c4_circular_include :
    (∀ (env : SimDefEnv) (n : Nat) (fileName : Str) (stack : List Str) (path : Str),
      env.resolve path (env.parentDir fileName) ∈ stack →
      (parserFns env (n + 1)).loadSub fileName stack path =
        Except.error (Err.circularInclude fileName
          (env.resolve path (env.parentDir fileName)) stack))
    ∧ SimDefinition.fromFile c4Env 50 (str "A") false defaultConfigValues =
        Except.error (Err.circularInclude (str "B") (str "A") [str "B", str "A"]) := by
  constructor
  · intro env n fileName stack path hmem
    simp only [parserFns]
    rw [if_pos hmem]
  · rfl

theorem claim_c4_witness :
    (parserFns c4Env 5).loadSub (str "B") [str "B", str "A"] (str "A") =
      Except.error (Err.circularInclude (str "B") (str "A") [str "B", str "A"]) :=
  claim_c4_circular_include.1 c4Env 4 (str "B") [str "B", str "A"] (str "A")
    (by decide)

/-! ### C5: the staging copy of a derived dictionary -/

/-- C6: merging the staging map of a `!create` block into the main table
fails with the derived-key-collision error whenever some staged key already
exists in the main table; in particular a pre-existing `Stage2.mass` makes
the whole parse fail that way. -/
theorem claim_c6_derived_collision (tbl dd : Table) (k : Str)
    (hnd : dd.keys.Nodup) (hk : k ∈ dd.keys) (hc : tbl.contains k = true) :
    (∃ k', mergeDerived tbl dd = Except.error (Err.derivedKeyCollision k')
      ∧ k' ∈ dd.keys ∧ tbl.contains k' = true)
    ∧ parseSimDefinitionFile c6Env 80 (str "h") =
        Except.error (Err.derivedKeyCollision (str "Stage2.mass")) := by
  refine ⟨?_, rfl⟩
  induction dd generalizing tbl with
  | nil => simp [Table.keys] at hk
  | cons kv rest ih =>
    obtain ⟨k0, v0⟩ := kv
    have hnd' : ¬k0 ∈ Table.keys rest ∧ (Table.keys rest).Nodup := by
      simpa [Table.keys] using hnd
    by_cases hc0 : tbl.contains k0 = true
    · refine ⟨k0, ?_, List.mem_cons_self _ _, hc0⟩
      simp [mergeDerived, hc0]
    · have hkne : k ≠ k0 := by
        intro he
        rw [he] at hc
        exact hc0 hc
      have hk' : k ∈ Table.keys rest := by
        rcases List.mem_cons.mp hk with he | h
        · exact absurd he hkne
        · exact h
      have hc' : (tbl.set k0 v0).contains k = true := by
        rw [Table.contains_set]
        simp [hc]
      obtain ⟨k', herr, hkm, hcm⟩ := ih (tbl.set k0 v0) hnd'.2 hk' hc'
      have hk'ne : k' ≠ k0 := by
        intro he
        rw [he] at hkm
        exact hnd'.1 hkm
      refine ⟨k', ?_, List.mem_cons_of_mem _ hkm, ?_⟩
      · simpa [mergeDerived, hc0] using herr
      · rw [Table.contains_set] at hcm
        rcases Bool.or_eq_true_iff.mp hcm with hd | hok
        · exact absurd (of_decide_eq_true hd) (fun he => hk'ne he.symm)
        · exact hok

theorem claim_c6_witness :
    ∃ k', mergeDerived [(str "Stage2.mass", str "99")] [(str "Stage2.mass", str "10")]
        = Except.error (Err.derivedKeyCollision k')
      ∧ k' ∈ Table.keys [(str "Stage2.mass", str "10")]
      ∧ Table.contains [(str "Stage2.mass", str "99")] k' = true :=
  (claim_c6_derived_collision [(str "Stage2.mass", str "99")]
    [(str "Stage2.mass", str "10")] (str "Stage2.mass")
    (by decide) (by decide) (by decide)).1

/-! ### C9 and C10 witnesses and counterexamples -/

/-- C9 counterexample: with no matching key, `findKeysContaining` returns
`None` (modelled `none`) — not the empty list the claim predicts. -/
theorem claim_c9_counterexample :
    c9ExampleSd.findKeysContaining [str "z"] = none ∧
    c9ExampleSd.findKeysContaining [str "z"] ≠ some [] := by
  exact ⟨rfl, by decide⟩

theorem claim_c9_amended_witness :
    c9ExampleSd.findKeysContaining [str "z"] = none := by
  have h := claim_c9_amended c9ExampleSd [str "z"]
  apply h.1.mpr
  decide

theorem claim_c10_witness :
    str "Rocket.name" ∈ c10ExampleSd.getImmediateSubKeys (str "Rocket") ∧
    ¬ str "Rocket.Stage" ∈ c10ExampleSd.getImmediateSubKeys (str "Rocket") := by
  constructor
  · apply (claim_c10_immediate_subkeys c10ExampleSd (str "Rocket") (str "Rocket.name")).mpr
    refine ⟨by decide, str "Rocket.name", ?_, by decide, by decide⟩
    decide
  · intro h
    have := (claim_c10_immediate_subkeys c10ExampleSd (str "Rocket")
      (str "Rocket.Stage")).mp h
    exact absurd this.1 (by decide)


/-! ### C1: the serialize/parse round trip -/

/-- C1 (code bug): `c1Table` is a valid flat table — it is itself the parse
of an ordinary definition file — yet re-parsing the text `writeToFile`
produces for it fails with a duplicate-key error instead of reproducing the
table.  The closing loop of `writeToFile` compares only the single segment
at the current depth (`currDicts[dictDepth-1] != dicts[dictDepth-1]`) and
stops at the first match, so moving from `A.C` to `B.C` closes nothing and
the second `k` line is emitted inside the still-open `A.C` dictionary. -/
theorem claim_c1_roundtrip_code_bug :
    parseSimDefinitionFile c1HandEnv 80 (str "hand.mapleaf") = Except.ok c1Table
    ∧ parseSimDefinitionFile c1ReadEnv 80 (str "out.mapleaf") =
        Except.error (Err.duplicateKey (str "A.C.k") (str "out.mapleaf")) :=
  ⟨rfl, rfl⟩


/-! ### C7: persistence of the `_mean` keys under resampling -/

theorem Table.get?_eq_none_of_contains_false (t : Table) (q : Str)
    (h : t.contains q = false) : t.get? q = none := by
  unfold Table.contains at h
  exact Option.not_isSome_iff_eq_none.mp (by simp [h])

theorem append_left_ne {a b : Str} (K : Str) (h : a ≠ b) : K ++ a ≠ K ++ b :=
  fun he => h (List.append_cancel_left he)

/-- `K + "_mean_stdDev"` is `(K + "_mean") + "_stdDev"`. -/
theorem meanStd_assoc (K : Str) :
    K ++ str "_mean_stdDev" = (K ++ str "_mean") ++ str "_stdDev" := by
  rw [List.append_assoc]
  rfl

/-- A successful draw only overwrites `key` in the table it was given. -/
theorem resampleDraw_ok_set (env : SimDefEnv) (dict : Table) (rng : Rng)
    (key mu sig : Str) (res : Table × Rng)
    (h : resampleDraw env dict rng key mu sig = Except.ok res) :
    ∃ w, res.1 = dict.set key w := by
  unfold resampleDraw at h
  split at h
  · injection h with hv
    exact ⟨_, by rw [← hv]⟩
  · split at h
    · injection h with hv
      exact ⟨_, by rw [← hv]⟩
    · cases h

/-- A non-`_stdDev` step: when `key + "_stdDev"` is absent the loop body
does nothing. -/
theorem resampleKey_noop (env : SimDefEnv) (st : Table × Rng) (J : Str)
    (h : st.1.get? (J ++ str "_stdDev") = none) :
    resampleKey env st J = Except.ok st := by
  simp only [resampleKey, h]

/-- The three possible effects of one loop iteration on the table: no
`_stdDev` companion (no change); mean already present (only `J` is
overwritten); mean absent (the current value of `J` is stored under
`J + "_mean"`, then `J` is overwritten). -/
theorem resampleKey_ok_shape (env : SimDefEnv) (st st' : Table × Rng) (J : Str)
    (h : resampleKey env st J = Except.ok st') :
    (st.1.get? (J ++ str "_stdDev") = none ∧ st'.1 = st.1) ∨
    (∃ m w, st.1.get? (J ++ str "_mean") = some m ∧ st'.1 = st.1.set J w) ∨
    (∃ m w, st.1.get? (J ++ str "_mean") = none ∧ st.1.get? J = some m ∧
      st'.1 = (st.1.set (J ++ str "_mean") m).set J w) := by
  simp only [resampleKey] at h
  cases hsd : st.1.get? (J ++ str "_stdDev") with
  | none =>
    rw [hsd] at h
    injection h with hv
    exact Or.inl ⟨rfl, by rw [← hv]⟩
  | some sdv =>
    rw [hsd] at h
    cases hmk : st.1.get? (J ++ str "_mean") with
    | some m =>
      rw [hmk] at h
      obtain ⟨w, hw⟩ := resampleDraw_ok_set env st.1 st.2 J m sdv st' h
      exact Or.inr (Or.inl ⟨m, w, rfl, hw⟩)
    | none =>
      rw [hmk] at h
      cases hjk : st.1.get? J with
      | none => rw [hjk] at h; cases h
      | some jv =>
        rw [hjk] at h
        obtain ⟨w, hw⟩ :=
          resampleDraw_ok_set env (st.1.set (J ++ str "_mean") jv) st.2 J jv sdv st' h
        exact Or.inr (Or.inr ⟨jv, w, rfl, rfl, hw⟩)

/-- One loop iteration only ever writes `J` and `J + "_mean"`. -/
theorem resampleKey_get?_other (env : SimDefEnv) (st st' : Table × Rng) (J q : Str)
    (h : resampleKey env st J = Except.ok st')
    (hq1 : q ≠ J) (hq2 : q ≠ J ++ str "_mean") :
    st'.1.get? q = st.1.get? q := by
  rcases resampleKey_ok_shape env st st' J h with ⟨_, he⟩ | ⟨m, w, _, he⟩ |
    ⟨m, w, _, _, he⟩
  · rw [he]
  · rw [he, Table.get?_set, if_neg (fun hx => hq1 hx.symm)]
  · rw [he, Table.get?_set, if_neg (fun hx => hq1 hx.symm),
      Table.get?_set, if_neg (fun hx => hq2 hx.symm)]

/-- A present binding of any key `q` other than the processed key `J`
survives the iteration on `J`: the only other write target, `J + "_mean"`,
is written only when it is absent. -/
theorem resampleKey_get?_some_other (env : SimDefEnv) (st st' : Table × Rng)
    (J q v : Str) (h : resampleKey env st J = Except.ok st')
    (hq : q ≠ J) (hv : st.1.get? q = some v) :
    st'.1.get? q = some v := by
  rcases resampleKey_ok_shape env st st' J h with ⟨_, he⟩ | ⟨m, w, _, he⟩ |
    ⟨m, w, hnone, _, he⟩
  · rw [he]; exact hv
  · rw [he, Table.get?_set, if_neg (fun hx => hq hx.symm)]; exact hv
  · by_cases hqm : q = J ++ str "_mean"
    · rw [hqm, hnone] at hv
      exact Option.noConfusion hv
    · rw [he, Table.get?_set, if_neg (fun hx => hq hx.symm),
        Table.get?_set, if_neg (fun hx => hqm hx.symm)]
      exact hv

/-- One loop iteration never removes a key. -/
theorem resampleKey_contains_mono (env : SimDefEnv) (st st' : Table × Rng) (J q : Str)
    (h : resampleKey env st J = Except.ok st')
    (hc : st.1.contains q = true) : st'.1.contains q = true := by
  rcases resampleKey_ok_shape env st st' J h with ⟨_, he⟩ | ⟨m, w, _, he⟩ |
    ⟨m, w, _, _, he⟩
  · rw [he]; exact hc
  · rw [he, Table.contains_set]; simp [hc]
  · rw [he, Table.contains_set, Table.contains_set]; simp [hc]

/-- A present `J + "_mean"` entry is never rewritten by the iteration on `J`. -/
theorem resampleKey_mean_preserved (env : SimDefEnv) (st st' : Table × Rng)
    (J m : Str) (h : resampleKey env st J = Except.ok st')
    (hm : st.1.get? (J ++ str "_mean") = some m) :
    st'.1.get? (J ++ str "_mean") = some m := by
  have hne : J ≠ J ++ str "_mean" :=
    fun hx => append_length_ne J (by decide) hx.symm
  rcases resampleKey_ok_shape env st st' J h with ⟨_, he⟩ | ⟨m', w, _, he⟩ |
    ⟨m', w, hnone, _, he⟩
  · rw [he]; exact hm
  · rw [he, Table.get?_set, if_neg hne]; exact hm
  · rw [hnone] at hm; cases hm

/-- The iteration on `J` with an absent `J + "_mean"` and a present
`J + "_stdDev"` stores the current value of `J` under `J + "_mean"`. -/
theorem resampleKey_mean_stored (env : SimDefEnv) (st st' : Table × Rng)
    (J v : Str) (h : resampleKey env st J = Except.ok st')
    (hm : st.1.get? (J ++ str "_mean") = none)
    (hj : st.1.get? J = some v)
    (hsd : st.1.contains (J ++ str "_stdDev") = true) :
    st'.1.get? (J ++ str "_mean") = some v := by
  have hne : J ≠ J ++ str "_mean" :=
    fun hx => append_length_ne J (by decide) hx.symm
  rcases resampleKey_ok_shape env st st' J h with ⟨hnone, _⟩ | ⟨m', w, hsome, _⟩ |
    ⟨m', w, _, hjv, he⟩
  · exfalso
    unfold Table.contains at hsd
    rw [hnone] at hsd
    simp at hsd
  · rw [hsome] at hm; cases hm
  · rw [hj] at hjv
    injection hjv with hjv
    rw [he, Table.get?_set, if_neg hne, Table.get?_set, if_pos rfl, hjv]


/-- Iterating the loop body on any key `J` other than `K + "_mean_stdDev"`
preserves: the absence of `K + "_mean_stdDev"`, and the presence of `K` and
of `K + "_stdDev"`. -/
theorem resampleKey_preserves_side (env : SimDefEnv) (st st1 : Table × Rng)
    (K J : Str) (hstep : resampleKey env st J = Except.ok st1)
    (hJne : J ≠ K ++ str "_mean_stdDev")
    (h2 : st.1.contains (K ++ str "_mean_stdDev") = false)
    (h3 : st.1.contains K = true)
    (h4 : st.1.contains (K ++ str "_stdDev") = true) :
    st1.1.contains (K ++ str "_mean_stdDev") = false ∧
    st1.1.contains K = true ∧
    st1.1.contains (K ++ str "_stdDev") = true := by
  refine ⟨?_, resampleKey_contains_mono env st st1 J K hstep h3,
    resampleKey_contains_mono env st st1 J (K ++ str "_stdDev") hstep h4⟩
  have hget : st1.1.get? (K ++ str "_mean_stdDev")
      = st.1.get? (K ++ str "_mean_stdDev") := by
    apply resampleKey_get?_other env st st1 J _ hstep
    · exact fun hx => hJne hx.symm
    · rw [meanStd_assoc]
      exact fun hx => mean_append_ne_stdDev_append J (K ++ str "_mean") hx.symm
  unfold Table.contains at h2 ⊢
  rw [hget]
  exact h2

/-- Iterating the loop body on any key `J` preserves a present
`K + "_mean"` binding, as long as `K + "_mean_stdDev"` is absent. -/
theorem resampleKey_preserves_mean (env : SimDefEnv) (st st1 : Table × Rng)
    (K J m : Str) (hstep : resampleKey env st J = Except.ok st1)
    (h2 : st.1.contains (K ++ str "_mean_stdDev") = false)
    (h1 : st.1.get? (K ++ str "_mean") = some m) :
    st1.1.get? (K ++ str "_mean") = some m := by
  by_cases hJKm : J = K ++ str "_mean"
  · have hnoop : resampleKey env st J = Except.ok st := by
      apply resampleKey_noop
      rw [hJKm, ← meanStd_assoc]
      exact Table.get?_eq_none_of_contains_false st.1 _ h2
    rw [hnoop] at hstep
    injection hstep with hv
    rw [← hv]
    exact h1
  · by_cases hJK : J = K
    · subst hJK
      exact resampleKey_mean_preserved env st st1 J m hstep h1
    · rw [resampleKey_get?_other env st st1 J _ hstep]
      · exact h1
      · exact fun hx => hJKm hx.symm
      · intro hx
        exact hJK (append_right_inj hx.symm)

/-- The resampling fold preserves the invariant package once `K + "_mean"`
is present. -/
theorem resampleKeys_mean_inv (env : SimDefEnv) (K m : Str) :
    ∀ (ks : List Str) (st st' : Table × Rng),
      resampleKeys env st ks = Except.ok st' →
      (K ++ str "_mean_stdDev") ∉ ks →
      st.1.get? (K ++ str "_mean") = some m →
      st.1.contains (K ++ str "_mean_stdDev") = false →
      st.1.contains K = true →
      st.1.contains (K ++ str "_stdDev") = true →
      st'.1.get? (K ++ str "_mean") = some m ∧
      st'.1.contains (K ++ str "_mean_stdDev") = false ∧
      st'.1.contains K = true ∧
      st'.1.contains (K ++ str "_stdDev") = true := by
  intro ks
  induction ks with
  | nil =>
    intro st st' h _ h1 h2 h3 h4
    simp only [resampleKeys] at h
    injection h with hv
    rw [← hv]
    exact ⟨h1, h2, h3, h4⟩
  | cons J ks ih =>
    intro st st' h hks h1 h2 h3 h4
    cases hstep : resampleKey env st J with
    | error e =>
      simp only [resampleKeys, hstep] at h
      exact Except.noConfusion h
    | ok st1 =>
      simp only [resampleKeys, hstep] at h
      have hJne : J ≠ K ++ str "_mean_stdDev" :=
        fun hx => hks (hx ▸ List.mem_cons_self J ks)
      obtain ⟨p2, p3, p4⟩ :=
        resampleKey_preserves_side env st st1 K J hstep hJne h2 h3 h4
      have p1 := resampleKey_preserves_mean env st st1 K J m hstep h2 h1
      exact ih st1 st' h (fun hmem => hks (List.mem_cons_of_mem J hmem)) p1 p2 p3 p4

/-- The first resampling run: when `K + "_mean"` is initially absent, the
fold stores the pre-run value of `K` under `K + "_mean"` at `K`'s own
iteration, and nothing disturbs it before or after. -/
theorem resampleKeys_first_run (env : SimDefEnv) (K v0 : Str) :
    ∀ (ks : List Str) (st st' : Table × Rng),
      resampleKeys env st ks = Except.ok st' →
      (K ++ str "_mean_stdDev") ∉ ks →
      st.1.get? K = some v0 →
      st.1.contains (K ++ str "_stdDev") = true →
      st.1.contains (K ++ str "_mean") = false →
      st.1.contains (K ++ str "_mean_stdDev") = false →
      K ∈ ks →
      st'.1.get? (K ++ str "_mean") = some v0 ∧
      st'.1.contains (K ++ str "_mean_stdDev") = false ∧
      st'.1.contains K = true ∧
      st'.1.contains (K ++ str "_stdDev") = true := by
  intro ks
  induction ks with
  | nil =>
    intro st st' _ _ _ _ _ _ hmem
    cases hmem
  | cons J ks ih =>
    intro st st' h hks hKv hstd hKm hmstd hmem
    cases hstep : resampleKey env st J with
    | error e =>
      simp only [resampleKeys, hstep] at h
      exact Except.noConfusion h
    | ok st1 =>
      simp only [resampleKeys, hstep] at h
      have hJne : J ≠ K ++ str "_mean_stdDev" :=
        fun hx => hks (hx ▸ List.mem_cons_self J ks)
      have hks' : (K ++ str "_mean_stdDev") ∉ ks :=
        fun hmem' => hks (List.mem_cons_of_mem J hmem')
      by_cases hJK : J = K
      · subst hJK
        have hKc : st.1.contains J = true := by
          unfold Table.contains
          rw [hKv]
          rfl
        have p1 : st1.1.get? (J ++ str "_mean") = some v0 :=
          resampleKey_mean_stored env st st1 J v0 hstep
            (Table.get?_eq_none_of_contains_false st.1 _ hKm) hKv hstd
        obtain ⟨p2, p3, p4⟩ :=
          resampleKey_preserves_side env st st1 J J hstep hJne hmstd hKc hstd
        exact resampleKeys_mean_inv env J v0 ks st1 st' h hks' p1 p2 p3 p4
      · have hKmem : K ∈ ks := by
          rcases List.mem_cons.mp hmem with he | hmem'
          · exact absurd he.symm hJK
          · exact hmem'
        have hKc : st.1.contains K = true := by
          unfold Table.contains
          rw [hKv]
          rfl
        obtain ⟨p2, p3, p4⟩ :=
          resampleKey_preserves_side env st st1 K J hstep hJne hmstd hKc hstd
        by_cases hJKm : J = K ++ str "_mean"
        · have hnoop : resampleKey env st J = Except.ok st := by
            apply resampleKey_noop
            rw [hJKm, ← meanStd_assoc]
            exact Table.get?_eq_none_of_contains_false st.1 _ hmstd
          rw [hnoop] at hstep
          injection hstep with hv
          subst hv
          exact ih st st' h hks' hKv hstd hKm hmstd hKmem
        · have hKv1 : st1.1.get? K = some v0 :=
            resampleKey_get?_some_other env st st1 J K v0 hstep
              (fun hx => hJK hx.symm) hKv
          have hKm1 : st1.1.contains (K ++ str "_mean") = false := by
            unfold Table.contains at hKm ⊢
            rw [resampleKey_get?_other env st st1 J (K ++ str "_mean") hstep
              (fun hx => hJKm hx.symm)
              (fun hx => hJK (append_right_inj hx.symm))]
            exact hKm
          exact ih st1 st' h hks' hKv1 p4 hKm1 p2 hKmem

/-- One successful resampling run preserves the invariant package once
`K + "_mean"` is present. -/
theorem resample_run_inv (env : SimDefEnv) (sd sd' : SimDefinition) (K m : Str)
    (hok : sd.resampleProbabilisticValues env = Except.ok sd')
    (hdis : sd.disableDistributionSampling = false)
    (h1 : sd.dict.get? (K ++ str "_mean") = some m)
    (h2 : sd.dict.contains (K ++ str "_mean_stdDev") = false)
    (h3 : sd.dict.contains K = true)
    (h4 : sd.dict.contains (K ++ str "_stdDev") = true) :
    sd'.dict.get? (K ++ str "_mean") = some m ∧
    sd'.dict.contains (K ++ str "_mean_stdDev") = false ∧
    sd'.dict.contains K = true ∧
    sd'.dict.contains (K ++ str "_stdDev") = true ∧
    sd'.disableDistributionSampling = false := by
  unfold SimDefinition.resampleProbabilisticValues at hok
  rw [hdis] at hok
  simp only [Bool.false_eq_true, if_false] at hok
  cases hfold : resampleKeys env (sd.dict, sd.rng) (Table.keys sd.dict) with
  | error e =>
    rw [hfold] at hok
    exact Except.noConfusion hok
  | ok p =>
    rw [hfold] at hok
    obtain ⟨d', r'⟩ := p
    injection hok with hv
    have hks : (K ++ str "_mean_stdDev") ∉ Table.keys sd.dict := by
      intro hmem
      rw [← Table.contains_iff_mem_keys] at hmem
      rw [h2] at hmem
      exact Bool.noConfusion hmem
    obtain ⟨q1, q2, q3, q4⟩ := resampleKeys_mean_inv env K m (Table.keys sd.dict)
      (sd.dict, sd.rng) (d', r') hfold hks h1 h2 h3 h4
    rw [← hv]
    exact ⟨q1, q2, q3, q4, rfl⟩

/-- The first successful resampling run creates `K + "_mean"` holding the
pre-run value of `K`. -/
theorem resample_run_first (env : SimDefEnv) (sd sd' : SimDefinition) (K v0 : Str)
    (hok : sd.resampleProbabilisticValues env = Except.ok sd')
    (hdis : sd.disableDistributionSampling = false)
    (hKv : sd.dict.get? K = some v0)
    (hstd : sd.dict.contains (K ++ str "_stdDev") = true)
    (hKm : sd.dict.contains (K ++ str "_mean") = false)
    (hmstd : sd.dict.contains (K ++ str "_mean_stdDev") = false) :
    sd'.dict.get? (K ++ str "_mean") = some v0 ∧
    sd'.dict.contains (K ++ str "_mean_stdDev") = false ∧
    sd'.dict.contains K = true ∧
    sd'.dict.contains (K ++ str "_stdDev") = true ∧
    sd'.disableDistributionSampling = false := by
  unfold SimDefinition.resampleProbabilisticValues at hok
  rw [hdis] at hok
  simp only [Bool.false_eq_true, if_false] at hok
  cases hfold : resampleKeys env (sd.dict, sd.rng) (Table.keys sd.dict) with
  | error e =>
    rw [hfold] at hok
    exact Except.noConfusion hok
  | ok p =>
    rw [hfold] at hok
    obtain ⟨d', r'⟩ := p
    injection hok with hv
    have hks : (K ++ str "_mean_stdDev") ∉ Table.keys sd.dict := by
      intro hmem
      rw [← Table.contains_iff_mem_keys] at hmem
      rw [hmstd] at hmem
      exact Bool.noConfusion hmem
    have hKmem : K ∈ Table.keys sd.dict :=
      Table.get?_eq_some_mem_keys sd.dict K v0 hKv
    obtain ⟨q1, q2, q3, q4⟩ := resampleKeys_first_run env K v0 (Table.keys sd.dict)
      (sd.dict, sd.rng) (d', r') hfold hks hKv hstd hKm hmstd hKmem
    rw [← hv]
    exact ⟨q1, q2, q3, q4, rfl⟩

/-- The invariant package survives any number of further successful runs. -/
theorem resampleN_inv (env : SimDefEnv) (K m : Str) :
    ∀ (n : Nat) (sd sd' : SimDefinition),
      resampleN env n sd = Except.ok sd' →
      sd.disableDistributionSampling = false →
      sd.dict.get? (K ++ str "_mean") = some m →
      sd.dict.contains (K ++ str "_mean_stdDev") = false →
      sd.dict.contains K = true →
      sd.dict.contains (K ++ str "_stdDev") = true →
      sd'.dict.get? (K ++ str "_mean") = some m ∧
      sd'.dict.contains K = true ∧
      sd'.dict.contains (K ++ str "_stdDev") = true := by
  intro n
  induction n with
  | zero =>
    intro sd sd' h _ h1 _ h3 h4
    simp only [resampleN] at h
    injection h with hv
    rw [← hv]
    exact ⟨h1, h3, h4⟩
  | succ n ih =>
    intro sd sd' h hdis h1 h2 h3 h4
    cases hrun : sd.resampleProbabilisticValues env with
    | error e =>
      simp only [resampleN, hrun] at h
      exact Except.noConfusion h
    | ok sd1 =>
      simp only [resampleN, hrun] at h
      obtain ⟨q1, q2, q3, q4, q5⟩ :=
        resample_run_inv env sd sd1 K m hrun hdis h1 h2 h3 h4
      exact ih sd1 sd' h q5 q1 q2 q3 q4

/-- C7 counterexample: with `X = 5`, `X_stdDev = 0.1` and `X_mean_stdDev = 9`
all present, the first run stores `X_mean = 5` as the claim says, but on
the second run `X_mean` is in the key snapshot and its own `_stdDev`
companion exists, so the loop treats it as a probabilistic parameter and
overwrites it with a Gaussian draw (`"d++"`, the third draw of the modelled
sampler): after two runs `X_mean` no longer equals the originally declared
mean, refuting the claim as stated. -/
theorem claim_c7_counterexample :
    c7BadSd.dict.get? (str "X") = some (str "5")
    ∧ c7BadSd.dict.contains (str "X" ++ str "_stdDev") = true
    ∧ c7BadSd.dict.contains (str "X" ++ str "_mean") = false
    ∧ (resampleN plainEnv 1 c7BadSd).map
        (fun sd => sd.dict.get? (str "X" ++ str "_mean")) =
      Except.ok (some (str "5"))
    ∧ (resampleN plainEnv 2 c7BadSd).map
        (fun sd => sd.dict.get? (str "X" ++ str "_mean")) =
      Except.ok (some (str "d++"))
    ∧ some (str "d++") ≠ some (str "5") :=
  ⟨rfl, rfl, rfl, rfl, rfl, by decide⟩

/-- C7 (amended): for a key `K` with companion `K + "_stdDev"`, provided
`K + "_mean_stdDev"` is not itself a key of the table, the first resampling
run stores the pre-sample value of `K` under `K + "_mean"` (when absent)
and no later run ever overwrites it: after any positive number of
successful runs `K`, `K + "_mean"` and `K + "_stdDev"` all exist and
`K + "_mean"` still holds the originally declared value, not a draw.
(When `K + "_mean_stdDev"` is present, `K + "_mean"` is itself treated as
a probabilistic parameter and is overwritten with a draw on the run after
its creation — the counterexample above.) -/
theorem claim_c7_mean_persistence (env : SimDefEnv) (sd sd' : SimDefinition)
    (K v0 : Str) (n : Nat)
    (hdis : sd.disableDistributionSampling = false)
    (hKv : sd.dict.get? K = some v0)
    (hstd : sd.dict.contains (K ++ str "_stdDev") = true)
    (hKm : sd.dict.contains (K ++ str "_mean") = false)
    (hmstd : sd.dict.contains (K ++ str "_mean_stdDev") = false)
    (hn : 0 < n)
    (hok : resampleN env n sd = Except.ok sd') :
    sd'.dict.get? (K ++ str "_mean") = some v0 ∧
    sd'.dict.contains K = true ∧
    sd'.dict.contains (K ++ str "_stdDev") = true := by
  cases n with
  | zero => exact absurd hn (by omega)
  | succ n =>
    cases hrun : sd.resampleProbabilisticValues env with
    | error e =>
      simp only [resampleN, hrun] at hok
      exact Except.noConfusion hok
    | ok sd1 =>
      simp only [resampleN, hrun] at hok
      obtain ⟨q1, q2, q3, q4, q5⟩ :=
        resample_run_first env sd sd1 K v0 hrun hdis hKv hstd hKm hmstd
      exact resampleN_inv env K v0 n sd1 sd' hok q5 q1 q2 q3 q4

theorem claim_c7_witness :
    ∃ sd', resampleN plainEnv 2 c7ExampleSd = Except.ok sd' ∧
      sd'.dict.get? (str "X" ++ str "_mean") = some (str "5") ∧
      sd'.dict.contains (str "X") = true ∧
      sd'.dict.contains (str "X" ++ str "_stdDev") = true := by
  have hisOk : (resampleN plainEnv 2 c7ExampleSd).isOk = true := by decide
  cases hok : resampleN plainEnv 2 c7ExampleSd with
  | error e =>
    rw [hok] at hisOk
    exact Bool.noConfusion hisOk
  | ok sd' =>
    refine ⟨sd', rfl, ?_⟩
    exact claim_c7_mean_persistence plainEnv c7ExampleSd sd' (str "X") (str "5") 2
      rfl rfl rfl rfl rfl (by omega) hok


/-! ### C8: determinism of resampling given the seed -/

/-- The resampling fold never consults the fresh-seed source: it reads only
the scalar/vector parsers and the seeded Gaussian sampler, which are
unchanged when the environment's `freshSeed` model is replaced. -/
theorem resampleKeys_freshSeed_irrel (env : SimDefEnv) (g2 : Str → Nat) :
    ∀ (ks : List Str) (st : Table × Rng),
      resampleKeys { env with freshSeed := g2 } st ks = resampleKeys env st ks := by
  intro ks
  induction ks with
  | nil => intro st; rfl
  | cons J ks ih =>
    intro st
    simp only [resampleKeys]
    have hk : resampleKey { env with freshSeed := g2 } st J
        = resampleKey env st J := rfl
    rw [hk]
    cases resampleKey env st J with
    | ok st1 => exact ih st1
    | error e => rfl

theorem resample_freshSeed_irrel (env : SimDefEnv) (g2 : Str → Nat)
    (sd : SimDefinition) :
    sd.resampleProbabilisticValues { env with freshSeed := g2 } =
      sd.resampleProbabilisticValues env := by
  unfold SimDefinition.resampleProbabilisticValues
  rw [resampleKeys_freshSeed_irrel]

theorem resampleN_freshSeed_irrel (env : SimDefEnv) (g2 : Str → Nat) :
    ∀ (n : Nat) (sd : SimDefinition),
      resampleN { env with freshSeed := g2 } n sd = resampleN env n sd := by
  intro n
  induction n with
  | zero => intro sd; rfl
  | succ n ih =>
    intro sd
    simp only [resampleN, resample_freshSeed_irrel]
    cases sd.resampleProbabilisticValues env with
    | ok sd1 => exact ih sd1
    | error e => rfl

/-- C8: construction from a table with a resolvable `MonteCarlo.randomSeed`
is deterministic given that seed: replacing the nondeterministic fresh-seed
source (the only source of randomness besides the seeded RNG) does not
change the constructed definition — including the sampled values drawn at
construction — nor any number of subsequent resampling runs, so two
definitions built from the same table and seed agree draw for draw. -/
theorem claim_c8_seed_determinism (env : SimDefEnv) (g2 : Str → Nat)
    (dictionary defaultDict : Table) (seedv : Str)
    (hseed : dictionary.get? (str "MonteCarlo.randomSeed") = some seedv) :
    mkSimDefinitionFromDict env dictionary false defaultDict =
      mkSimDefinitionFromDict { env with freshSeed := g2 } dictionary false
        defaultDict
    ∧ ∀ n,
      (mkSimDefinitionFromDict env dictionary false defaultDict).bind
          (fun sd => resampleN env n sd) =
        (mkSimDefinitionFromDict { env with freshSeed := g2 } dictionary false
            defaultDict).bind
          (fun sd => resampleN { env with freshSeed := g2 } n sd) := by
  have hstrip : pyStrip (str "MonteCarlo.randomSeed")
      = str "MonteCarlo.randomSeed" := rfl
  have hfirst : mkSimDefinitionFromDict env dictionary false defaultDict =
      mkSimDefinitionFromDict { env with freshSeed := g2 } dictionary false
        defaultDict := by
    unfold mkSimDefinitionFromDict finishInit
    simp only [SimDefinition.getValue, hstrip, hseed, Bool.false_eq_true, if_false]
    exact (resample_freshSeed_irrel env g2 _).symm
  refine ⟨hfirst, fun n => ?_⟩
  rw [← hfirst]
  cases hmk : mkSimDefinitionFromDict env dictionary false defaultDict with
  | error e => rfl
  | ok sd =>
    simp only [Except.bind]
    exact (resampleN_freshSeed_irrel env g2 n sd).symm

theorem claim_c8_witness :
    mkSimDefinitionFromDict plainEnv c8Dict false defaultConfigValues =
      mkSimDefinitionFromDict { plainEnv with freshSeed := fun _ => 123456 }
        c8Dict false defaultConfigValues :=
  (claim_c8_seed_determinism plainEnv (fun _ => 123456) c8Dict
    defaultConfigValues (str "228") rfl).1

end MapleafSim
